import Mathlib

/-!
Verification of the entity state-tracking and change-detection engine of the
huizen-zoeker repository.

The embedding follows the Python source:
* `add_or_update_property`, `mark_inactive_properties`, `get_property` model
  `src/property_db.py` (the Entity Store over the SQLite tables `properties`
  and `property_history`);
* `process_listings` models `src/change_detector.py` (the Change Detector);
* `PropertyFilter.matches` models `src/property_filter.py` (the Criteria
  Filter).

Python dictionary values are modelled by `Value` (integers, strings, `None`);
dictionaries by association lists with unique keys reachable through
`dlookup` / `dinsert`.  SQLite rows are modelled by `PropertyRow` and
`HistoryEntry`; timestamps by `Nat` ticks (ISO strings in the source, only
compared for identity here).  A Python `KeyError` and a `TypeError` /
`AttributeError` are modelled by the `Except String` monad; an uncaught
exception closes the SQLite connection without a commit, so the error result
carries no database state (the state rolls back).  A `sqlite3.Error` raised by
the persistence layer is caught by the source and turned into an `"error"`
status; it is injected through the `fault` predicate of `add_or_update_flt`.
-/

inductive Value where
  | vint : Int → Value
  | vstr : String → Value
  | vnone : Value
deriving DecidableEq, Repr

abbrev Dict := List (String × Value)

/-- Python `d[k]` / `d.get(k)`: value of the first (unique) matching key. -/
def dlookup : Dict → String → Option Value
  | [], _ => none
  | (k', v') :: rest, k => if k' = k then some v' else dlookup rest k

/-- Python `k in d`. -/
def dhas (d : Dict) (k : String) : Bool :=
  (dlookup d k).isSome

/-- Python `d.get(k, v0)`. -/
def dgetD (d : Dict) (k : String) (v0 : Value) : Value :=
  (dlookup d k).getD v0

/-- Python `d[k] = v`: replace the value at an existing key in place,
otherwise append the new key at the end (insertion order). -/
def dinsert : Dict → String → Value → Dict
  | [], k, v => [(k, v)]
  | (k', v') :: rest, k, v =>
    if k' = k then (k, v) :: rest else (k', v') :: dinsert rest k v

/-- Python `str(x)` for the values that reach `property_history`. -/
def pyStr : Value → String
  | .vint n => toString n
  | .vstr s => s
  | .vnone => "None"

/-- One entry of the `changes` list returned by `add_or_update_property`
(`{'field': …, 'old_value': …, 'new_value': …}`). -/
structure Change where
  field : String
  old_value : Value
  new_value : Value
deriving DecidableEq, Repr

/-- A row of the `properties` table (src/property_db.py, `_init_db`).
`extra_data` holds the parsed form of the JSON `extra_data` TEXT column. -/
structure PropertyRow where
  id : Value
  address : Value
  city : Value
  price : Value
  area : Value
  rooms : Value
  property_type : Value
  url : Value
  source : Value
  first_seen : Nat
  last_seen : Nat
  last_updated : Nat
  extra_data : Dict
  active : Bool
deriving DecidableEq, Repr

/-- A row of the `property_history` table. -/
structure HistoryEntry where
  property_id : Value
  change_type : String
  change_date : Nat
  old_value : Option String
  new_value : Option String
deriving DecidableEq, Repr

/-- The two tables owned by the Store. -/
structure DB where
  properties : List PropertyRow
  history : List HistoryEntry
deriving DecidableEq, Repr

/-- `core_fields` of `add_or_update_property` (src/property_db.py line 130). -/
def core_fields : List String :=
  ["price", "area", "rooms", "property_type", "address", "city"]

/-- Reading a core-field column of a stored row by its name.  The source reads
`existing_data[field]`, a dict of all columns merged with the parsed extra
data; extra keys never shadow a core column because `mkExtra` filters the core
names out before storing. -/
def coreGet (r : PropertyRow) : String → Value
  | "price" => r.price
  | "area" => r.area
  | "rooms" => r.rooms
  | "property_type" => r.property_type
  | "address" => r.address
  | "city" => r.city
  | _ => .vnone

/-- The keys excluded from `extra_data` (src/property_db.py lines 162-164);
note the source list does not contain `extra_data` itself. -/
def non_extra_keys : List String :=
  ["id", "address", "city", "price", "area", "rooms", "property_type", "url",
   "source", "first_seen", "last_seen", "last_updated", "active"]

/-- `extra_data = {k: v for k, v in property_data.items() if k not in …}`. -/
def mkExtra (pd : Dict) : Dict :=
  pd.filter (fun kv => !(non_extra_keys.contains kv.1))

/-- The comparison loop of `add_or_update_property` (lines 133-157): a change
is recorded for a core field only when the field is a key of the candidate
dict (`if field in property_data`) and its value differs from the stored one.
Stored rows always carry every core column, so `field in existing_data` is
always true. -/
def computeChanges (row : PropertyRow) (pd : Dict) : List Change :=
  core_fields.filterMap (fun f =>
    (dlookup pd f).bind (fun newV =>
      if coreGet row f ≠ newV then
        some { field := f, old_value := coreGet row f, new_value := newV }
      else none))

/-- `SELECT * FROM properties WHERE id = ?` (first matching row). -/
def findProperty (db : DB) (pid : Value) : Option PropertyRow :=
  db.properties.find? (fun r => r.id == pid)

/-- `UPDATE properties SET … WHERE id = ?`: every row whose id matches is
replaced (the primary key makes it unique in practice). -/
def replaceRow : List PropertyRow → Value → PropertyRow → List PropertyRow
  | [], _, _ => []
  | r :: rest, pid, newRow =>
    if r.id == pid then newRow :: replaceRow rest pid newRow
    else r :: replaceRow rest pid newRow

/-- The `changed_<field>` history row inserted for one detected change. -/
def changeEntry (pid : Value) (now : Nat) (c : Change) : HistoryEntry :=
  { property_id := pid, change_type := "changed_" ++ c.field, change_date := now,
    old_value := some (pyStr c.old_value), new_value := some (pyStr c.new_value) }

/-- Python `d[k]`: `KeyError` when the key is absent. -/
def getKey (pd : Dict) (k : String) : Except String Value :=
  match dlookup pd k with
  | some v => .ok v
  | none => .error ("KeyError: " ++ k)

/-- `PropertyDatabase.add_or_update_property` (src/property_db.py lines
92-261), happy persistence path.  The result is the returned
`(status, changes)` pair together with the database after the call; a
`KeyError` escapes the `except sqlite3.Error` handler, the connection closes
without a commit and the transaction rolls back, so the error case carries no
state.  The `getKey` calls appear in the evaluation order of the source
(`INSERT` / `UPDATE` argument tuples). -/
def add_or_update_property (db : DB) (pd : Dict) (now : Nat) :
    Except String (String × List Change × DB) :=
  match getKey pd "id" with
  | .error e => .error e
  | .ok pid =>
    match findProperty db pid with
    | some row =>
      let changes := computeChanges row pd
      if changes.isEmpty then
        .ok ("unchanged", [],
          { db with properties :=
              replaceRow db.properties pid { row with last_seen := now, active := true } })
      else
        match getKey pd "address", getKey pd "city", getKey pd "price", getKey pd "url" with
        | .error e, _, _, _ => .error e
        | _, .error e, _, _ => .error e
        | _, _, .error e, _ => .error e
        | _, _, _, .error e => .error e
        | .ok address, .ok city, .ok price, .ok url =>
          let row2 : PropertyRow :=
            { row with
              address := address, city := city, price := price,
              area := dgetD pd "area" (.vint 0),
              rooms := dgetD pd "rooms" (.vint 0),
              property_type := dgetD pd "property_type" (.vstr "Onbekend"),
              url := url, last_seen := now, last_updated := now,
              extra_data := mkExtra pd, active := true }
          .ok ("updated", changes,
            { properties := replaceRow db.properties pid row2,
              history := db.history ++ (computeChanges row pd).map (changeEntry pid now) })
    | none =>
      match getKey pd "address", getKey pd "city", getKey pd "price", getKey pd "url",
            getKey pd "source" with
      | .error e, _, _, _, _ => .error e
      | _, .error e, _, _, _ => .error e
      | _, _, .error e, _, _ => .error e
      | _, _, _, .error e, _ => .error e
      | _, _, _, _, .error e => .error e
      | .ok address, .ok city, .ok price, .ok url, .ok source =>
        let row : PropertyRow :=
          { id := pid, address := address, city := city, price := price,
            area := dgetD pd "area" (.vint 0),
            rooms := dgetD pd "rooms" (.vint 0),
            property_type := dgetD pd "property_type" (.vstr "Onbekend"),
            url := url, source := source,
            first_seen := now, last_seen := now, last_updated := now,
            extra_data := mkExtra pd, active := true }
        let h : HistoryEntry :=
          { property_id := pid, change_type := "new_property", change_date := now,
            old_value := none,
            new_value := some ("New property: " ++ pyStr address ++ ", " ++ pyStr city) }
        .ok ("new", [], { properties := db.properties ++ [row], history := db.history ++ [h] })

/-- `add_or_update_property` as called through a possibly failing persistence
layer: `fault pid = true` means the first `cursor.execute` raises
`sqlite3.Error`, which the source catches and turns into `("error", [])`
(lines 256-258) leaving the database unchanged.  `property_data['id']` is read
before that first execute, so a missing id still raises `KeyError`. -/
def add_or_update_flt (fault : Value → Bool) (db : DB) (pd : Dict) (now : Nat) :
    Except String (String × List Change × DB) :=
  match getKey pd "id" with
  | .error e => .error e
  | .ok pid =>
    if fault pid then .ok ("error", [], db)
    else add_or_update_property db pd now

/-- `UPDATE properties SET active = 0, last_updated = ? WHERE id = ?`. -/
def deactivateById (props : List PropertyRow) (pid : Value) (now : Nat) :
    List PropertyRow :=
  props.map (fun r =>
    if r.id == pid then { r with active := false, last_updated := now } else r)

/-- The `property_inactive` history row. -/
def inactiveEntry (pid : Value) (now : Nat) : HistoryEntry :=
  { property_id := pid, change_type := "property_inactive", change_date := now,
    old_value := none, new_value := some "Property no longer available" }

/-- `PropertyDatabase.mark_inactive_properties` (src/property_db.py lines
263-325).  With an empty `active_ids` the source renders the SQL clause as
`id NOT IN ('')`, i.e. the effective seen set is the singleton empty string;
otherwise the clause is `id NOT IN (?,…)` over `active_ids`. -/
def mark_inactive_properties (db : DB) (active_ids : List Value) (source : Value)
    (now : Nat) : List Value × DB :=
  let seen := if active_ids.isEmpty then [Value.vstr ""] else active_ids
  let inactive_ids :=
    (db.properties.filter
      (fun r => r.source == source && r.active && !(seen.contains r.id))).map
      PropertyRow.id
  let props := inactive_ids.foldl (fun ps pid => deactivateById ps pid now) db.properties
  (inactive_ids,
   { properties := props,
     history := db.history ++ inactive_ids.map (fun pid => inactiveEntry pid now) })

/-- The flattened record view produced by `get_property` (lines 327-365):
all columns zipped with their names, then `result.update(extra_data)`.  The
raw JSON text of the `extra_data` column is not part of this view; its parsed
key/value pairs are merged in its place. -/
def rowToDict (r : PropertyRow) : Dict :=
  let base : Dict :=
    [("id", r.id), ("address", r.address), ("city", r.city), ("price", r.price),
     ("area", r.area), ("rooms", r.rooms), ("property_type", r.property_type),
     ("url", r.url), ("source", r.source),
     ("first_seen", .vstr (toString r.first_seen)),
     ("last_seen", .vstr (toString r.last_seen)),
     ("last_updated", .vstr (toString r.last_updated)),
     ("active", .vint (if r.active then 1 else 0))]
  r.extra_data.foldl (fun d kv => dinsert d kv.1 kv.2) base

/-- `PropertyDatabase.get_property`. -/
def get_property (db : DB) (pid : Value) : Option Dict :=
  (findProperty db pid).map rowToDict

/-- A caller-visible snapshot after the detector has touched it: the dict with
`source` stamped in, together with the `changes` key when one was attached
(`listing['changes'] = changes`, src/change_detector.py line 69).  Incoming
snapshots carry no `changes` key, so the optional slot is an exact rendering
of the mutation. -/
abbrev Snap := Dict × Option (List Change)

/-- The `{new, updated, removed}` result of `process_listings`. -/
structure BatchResult where
  new : List Snap
  updated : List Snap
  removed : List Dict
deriving DecidableEq, Repr

/-- The loop state of `ChangeDetector.process_listings`: the database handle,
the three accumulators, the caller's (mutated) listing dicts processed so far,
and the tick of the next `datetime.now()`. -/
structure LoopState where
  db : DB
  new : List Snap
  updated : List Snap
  active_ids : List Value
  snaps : List Snap
  t : Nat
deriving Repr

/-- One iteration of the listing loop (src/change_detector.py lines 54-70):
stamp `source`, upsert, append the listing's id to `active_ids` regardless of
the returned status, and classify. -/
def processOne (fault : Value → Bool) (source : String) (s : LoopState) (listing : Dict) :
    Except String LoopState :=
  let l := dinsert listing "source" (.vstr source)
  match add_or_update_flt fault s.db l s.t with
  | .error e => .error e
  | .ok (status, changes, db') =>
    match getKey l "id" with
    | .error e => .error e
    | .ok pid =>
      let sn : Snap :=
        if status = "updated" ∧ changes ≠ [] then (l, some changes) else (l, none)
      let s' : LoopState :=
        { db := db', new := s.new, updated := s.updated,
          active_ids := s.active_ids ++ [pid], snaps := s.snaps ++ [sn], t := s.t + 1 }
      if status = "new" then
        .ok { s' with new := s'.new ++ [(l, none)] }
      else if status = "updated" ∧ changes ≠ [] then
        .ok { s' with updated := s'.updated ++ [(l, some changes)] }
      else
        .ok s'

/-- `ChangeDetector.process_listings` (src/change_detector.py lines 36-87).
Besides the `{new, updated, removed}` result and the final database it returns
the batch's listing dicts as the caller sees them after the call (the loop
mutates them in place). -/
def process_listings (fault : Value → Bool) (db : DB) (listings : List Dict)
    (source : String) (t : Nat) :
    Except String (BatchResult × DB × List Snap) :=
  match listings.foldlM (processOne fault source)
      { db := db, new := [], updated := [], active_ids := [], snaps := [], t := t } with
  | .error e => .error e
  | .ok s =>
    let swept := mark_inactive_properties s.db s.active_ids (.vstr source) s.t
    let removed := swept.1.filterMap (fun pid => get_property swept.2 pid)
    .ok ({ new := s.new, updated := s.updated, removed := removed }, swept.2, s.snaps)

/-- `PropertyFilter.__init__` (src/property_filter.py lines 25-43) with the
source's default arguments (`cities=None` and `property_types=None` become
empty lists). -/
structure PropertyFilter where
  min_price : Int := 0
  max_price : Int := 10000000
  min_area : Int := 0
  cities : List String := []
  property_types : List String := []
deriving DecidableEq, Repr

/-- A Python `<` / `>` comparison against an integer bound: raises `TypeError`
on a non-integer operand. -/
def asInt : Value → Except String Int
  | .vint n => .ok n
  | _ => .error "TypeError"

/-- A Python `.lower()` call: raises `AttributeError` on a non-string. -/
def asStr : Value → Except String String
  | .vstr s => .ok s
  | _ => .error "AttributeError"

/-- Whether the first character list is an initial segment of the second. -/
def startsList : List Char → List Char → Bool
  | [], _ => true
  | _ :: _, [] => false
  | a :: as, b :: bs => a == b && startsList as bs

/-- Python `needle in hay` on strings: `needle` occurs contiguously in `hay`. -/
def subList : List Char → List Char → Bool
  | n, [] => startsList n []
  | n, b :: t => startsList n (b :: t) || subList n t

/-- `PropertyFilter.matches` (src/property_filter.py lines 45-77), with the
source's early returns: a record rejected by the price range never evaluates
the later clauses. -/
def PropertyFilter.matches (f : PropertyFilter) (pd : Dict) : Except String Bool :=
  match asInt (dgetD pd "price" (.vint 0)) with
  | .error e => .error e
  | .ok price =>
    if price < f.min_price || price > f.max_price then .ok false
    else
      match asInt (dgetD pd "area" (.vint 0)) with
      | .error e => .error e
      | .ok area =>
        if area < f.min_area then .ok false
        else
          let typeStage : Except String Bool :=
            if f.property_types.isEmpty then .ok true
            else
              match dgetD pd "property_type" (.vstr "") with
              | .vstr s => .ok (f.property_types.contains s)
              | _ => .ok false
          if f.cities.isEmpty then typeStage
          else
            match asStr (dgetD pd "city" (.vstr "")) with
            | .error e => .error e
            | .ok city =>
              if f.cities.any (fun c =>
                  subList (String.toLower c).toList (String.toLower city).toList) then
                typeStage
              else .ok false

/-! Concrete fixtures used by the claim theorems and witnesses. -/

/-- A stored listing used as the base of several concrete scenarios. -/
def baseRow : PropertyRow :=
  { id := .vstr "a", address := .vstr "Main 1", city := .vstr "R",
    price := .vint 100, area := .vint 50, rooms := .vint 3,
    property_type := .vstr "Huis", url := .vstr "u", source := .vstr "s",
    first_seen := 0, last_seen := 0, last_updated := 0,
    extra_data := [], active := true }

/-- A fault-free persistence layer. -/
def nofault : Value → Bool := fun _ => false

def C1db : DB := { properties := [baseRow], history := [] }

/-- A snapshot for the same entity with a new price and no `area` key. -/
def C1pd : Dict :=
  [("id", .vstr "a"), ("address", .vstr "Main 1"), ("city", .vstr "R"),
   ("price", .vint 200), ("rooms", .vint 3), ("property_type", .vstr "Huis"),
   ("url", .vstr "u"), ("source", .vstr "s")]

def C2db : DB := { properties := [{ baseRow with id := .vstr "x" }], history := [] }

def C2pd : Dict :=
  [("id", .vstr "x"), ("address", .vstr "Main 1"), ("city", .vstr "R"),
   ("price", .vint 100), ("url", .vstr "u")]

/-- The persistence layer fails on the upsert of entity `x`. -/
def C2fault : Value → Bool := fun v => v == .vstr "x"

/-- An active stored record whose id is the empty string. -/
def C3db : DB := { properties := [{ baseRow with id := .vstr "" }], history := [] }

def C3wdb : DB :=
  { properties := [{ baseRow with id := .vstr "k" },
                   { baseRow with id := .vstr "m", source := .vstr "t" }],
    history := [] }

/-- A snapshot missing the mandatory `price` key. -/
def C4bad : Dict :=
  [("id", .vstr "b1"), ("address", .vstr "X 1"), ("city", .vstr "Y"), ("url", .vstr "u")]

def C4good : Dict :=
  [("id", .vstr "b2"), ("address", .vstr "X 2"), ("city", .vstr "Y"),
   ("price", .vint 300), ("url", .vstr "u2")]

def C5wdb : DB := { properties := [{ baseRow with active := false }], history := [] }

/-- A snapshot of `baseRow` whose core fields all equal the stored values. -/
def C5wpd : Dict :=
  [("id", .vstr "a"), ("address", .vstr "Main 1"), ("city", .vstr "R"),
   ("price", .vint 100), ("area", .vint 50), ("rooms", .vint 3),
   ("property_type", .vstr "Huis"), ("url", .vstr "u")]

def C6db : DB := { properties := [{ baseRow with last_updated := 5 }], history := [] }

def C7wpd : Dict :=
  [("id", .vstr "n1"), ("address", .vstr "B 2"), ("city", .vstr "R"),
   ("price", .vint 300), ("url", .vstr "u2"), ("source", .vstr "s"),
   ("tuin", .vstr "ja")]

/-- A record whose price exceeds the default `max_price` of 10000000. -/
def C8pd : Dict :=
  [("price", .vint 10000001), ("area", .vint 80), ("city", .vstr "Rotterdam"),
   ("property_type", .vstr "Appartement")]

/-- The filter of spec section 8's conjunction test. -/
def C8wf : PropertyFilter :=
  { min_price := 100000, max_price := 225000, min_area := 50,
    cities := ["Rotterdam"], property_types := ["Appartement"] }

def C8wpd : Dict :=
  [("price", .vint 150000), ("area", .vint 75), ("city", .vstr "Rotterdam"),
   ("property_type", .vstr "Appartement")]

def C9wpd : Dict :=
  [("id", .vstr "n1"), ("address", .vstr "B 2"), ("city", .vstr "R"),
   ("price", .vint 300), ("url", .vstr "u2")]

/-- A snapshot without the optional `area`, `rooms` and `property_type` keys. -/
def C10pd : Dict :=
  [("id", .vstr "w"), ("address", .vstr "W 9"), ("city", .vstr "R"),
   ("price", .vint 400), ("url", .vstr "u3"), ("source", .vstr "s")]

/-- `C10pd` with the optional fields set explicitly to their defaults. -/
def withDefaults (pd : Dict) : Dict :=
  dinsert (dinsert (dinsert pd "area" (.vint 0)) "rooms" (.vint 0))
    "property_type" (.vstr "Onbekend")

/-- The database produced by upserting `C1pd` into `C1db` at tick 1: the price
was updated and recorded, while the stored `area` 50 was silently overwritten
with the default 0 because the snapshot omitted the key. -/
def C1db2 : DB :=
  { properties := [{ baseRow with
                     price := .vint 200, area := .vint 0,
                     last_seen := 1, last_updated := 1 }],
    history := [{ property_id := .vstr "a", change_type := "changed_price",
                  change_date := 1, old_value := some "100", new_value := some "200" }] }

def C6wpd : Dict :=
  [("id", .vstr "a"), ("address", .vstr "Main 1"), ("city", .vstr "R"),
   ("price", .vint 100), ("area", .vint 50), ("rooms", .vint 3),
   ("property_type", .vstr "Huis"), ("url", .vstr "u")]

/-- The store of `C6db` after an unchanged upsert of `C6wpd` at tick 11. -/
def C6db1 : DB :=
  { properties := [{ baseRow with last_updated := 5, last_seen := 11 }],
    history := [] }

def C9snaps : List Snap := [(dinsert C9wpd "source" (.vstr "s"), none)]

def C9res : BatchResult := { new := C9snaps, updated := [], removed := [] }

/-- The store after the C9 witness batch: one created row, one history row. -/
def C9db2 : DB :=
  { properties := [{ id := .vstr "n1", address := .vstr "B 2", city := .vstr "R",
                     price := .vint 300, area := .vint 0, rooms := .vint 0,
                     property_type := .vstr "Onbekend", url := .vstr "u2",
                     source := .vstr "s", first_seen := 0, last_seen := 0,
                     last_updated := 0, extra_data := [], active := true }],
    history := [{ property_id := .vstr "n1", change_type := "new_property",
                  change_date := 0, old_value := none,
                  new_value := some "New property: B 2, R" }] }

def C5s0 : LoopState :=
  { db := C5wdb, new := [], updated := [], active_ids := [], snaps := [], t := 10 }

/-- The C5 witness store after the batch: the record is reactivated. -/
def C5dbF : DB := { properties := [{ baseRow with last_seen := 10 }], history := [] }

def C5snaps : List Snap := [(dinsert C5wpd "source" (.vstr "s"), none)]

/-! Helper lemmas about the dictionary and store primitives. -/

theorem dlookup_dinsert_self (d : Dict) (k : String) (v : Value) :
    dlookup (dinsert d k v) k = some v := by
  induction d with
  | nil => simp [dinsert, dlookup]
  | cons kv rest ih =>
    obtain ⟨k', v'⟩ := kv
    by_cases h : k' = k
    · subst h; simp [dinsert, dlookup]
    · simp [dinsert, dlookup, h, ih]

theorem dlookup_dinsert_other (d : Dict) (k k0 : String) (v : Value) (h : k ≠ k0) :
    dlookup (dinsert d k v) k0 = dlookup d k0 := by
  induction d with
  | nil => simp [dinsert, dlookup, h]
  | cons kv rest ih =>
    obtain ⟨k', v'⟩ := kv
    by_cases hk : k' = k
    · subst hk
      simp only [dinsert, if_pos rfl]
      simp [dlookup, h]
    · simp only [dinsert, if_neg hk]
      by_cases h0 : k' = k0 <;> simp [dlookup, h0, ih]

/-- Membership in the computed change list: a change is produced exactly for a
core field that is a key of the candidate dict and differs from the stored
value. -/
theorem mem_computeChanges (row : PropertyRow) (pd : Dict) (f : String) (o n : Value) :
    ({ field := f, old_value := o, new_value := n } : Change) ∈ computeChanges row pd ↔
      f ∈ core_fields ∧ dlookup pd f = some n ∧ coreGet row f = o ∧ o ≠ n := by
  unfold computeChanges
  rw [List.mem_filterMap]
  constructor
  · rintro ⟨a, ha, hfa⟩
    cases hl : dlookup pd a with
    | none => rw [hl, Option.none_bind] at hfa; exact absurd hfa (by simp)
    | some v =>
      rw [hl, Option.some_bind] at hfa
      by_cases hne : coreGet row a ≠ v
      · rw [if_pos hne] at hfa
        injection hfa with heq
        injection heq with hA hO hN
        subst hA; subst hN
        exact ⟨ha, hl, hO, fun hon => hne (by rw [hO, hon])⟩
      · rw [if_neg hne] at hfa; exact absurd hfa (by simp)
  · rintro ⟨hf, hl, ho, hne⟩
    refine ⟨f, hf, ?_⟩
    rw [hl, Option.some_bind, if_pos (show coreGet row f ≠ n by rw [ho]; exact hne), ho]

/-- When every core field of the candidate is present and equal to the stored
value, the comparison loop records nothing. -/
theorem computeChanges_eq_nil (row : PropertyRow) (pd : Dict)
    (h : ∀ f ∈ core_fields, dlookup pd f = some (coreGet row f)) :
    computeChanges row pd = [] := by
  unfold computeChanges
  rw [List.filterMap_eq_nil_iff]
  intro f hf
  rw [h f hf]
  simp

theorem find?_replaceRow_self (props : List PropertyRow) (pid : Value)
    (row2 : PropertyRow) (hex : (props.find? (fun r => r.id == pid)).isSome)
    (h2 : row2.id = pid) :
    (replaceRow props pid row2).find? (fun r => r.id == pid) = some row2 := by
  induction props with
  | nil => simp [List.find?] at hex
  | cons r rest ih =>
    cases h : r.id == pid with
    | true =>
      simp only [replaceRow, if_pos h, List.find?_cons, h2, beq_self_eq_true]
    | false =>
      rw [List.find?_cons, h] at hex
      simp only [replaceRow, h, if_neg Bool.false_ne_true, List.find?_cons]
      exact ih hex

theorem find?_replaceRow_other (props : List PropertyRow) (qid pid : Value)
    (row2 : PropertyRow) (hne : qid ≠ pid) (h2 : row2.id = qid) :
    (replaceRow props qid row2).find? (fun r => r.id == pid)
      = props.find? (fun r => r.id == pid) := by
  induction props with
  | nil => rfl
  | cons r rest ih =>
    cases h : r.id == qid with
    | true =>
      have hr : r.id = qid := by simpa using h
      have hrp : (r.id == pid) = false := by simp [hr, hne]
      have h2p : (row2.id == pid) = false := by simp [h2, hne]
      simp only [replaceRow, if_pos h, List.find?_cons, hrp, h2p, ih]
    | false =>
      simp only [replaceRow, h, if_neg Bool.false_ne_true, List.find?_cons]
      cases hp : r.id == pid with
      | true => rfl
      | false => exact ih

theorem replaceRow_of_not_found (props : List PropertyRow) (pid : Value)
    (row2 : PropertyRow) (h : props.find? (fun r => r.id == pid) = none) :
    replaceRow props pid row2 = props := by
  induction props with
  | nil => rfl
  | cons r rest ih =>
    rw [List.find?_eq_none] at h
    have hr : (r.id == pid) = false := by
      have := h r (by simp)
      simpa using this
    simp only [replaceRow, hr, if_neg Bool.false_ne_true]
    rw [ih (List.find?_eq_none.mpr (fun a ha hp => h a (by simp [ha]) hp))]

theorem find?_deactivateById_other (props : List PropertyRow) (qid pid : Value)
    (now : Nat) (hne : qid ≠ pid) :
    (deactivateById props qid now).find? (fun r => r.id == pid)
      = props.find? (fun r => r.id == pid) := by
  induction props with
  | nil => rfl
  | cons r rest ih =>
    cases hq : r.id == qid with
    | true =>
      have hr : r.id = qid := by simpa using hq
      have hrp : (r.id == pid) = false := by simp [hr, hne]
      simp only [deactivateById, List.map_cons, if_pos hq, List.find?_cons, hrp]
      simpa [deactivateById] using ih
    | false =>
      simp only [deactivateById, List.map_cons, hq, if_neg Bool.false_ne_true,
        List.find?_cons]
      cases hp : r.id == pid with
      | true => rfl
      | false => simpa [deactivateById] using ih

theorem find?_foldl_deactivate (qids : List Value) (props : List PropertyRow)
    (pid : Value) (now : Nat) (h : ∀ q ∈ qids, q ≠ pid) :
    (qids.foldl (fun ps q => deactivateById ps q now) props).find?
        (fun r => r.id == pid)
      = props.find? (fun r => r.id == pid) := by
  induction qids generalizing props with
  | nil => rfl
  | cons q rest ih =>
    rw [List.foldl_cons, ih _ (fun x hx => h x (by simp [hx])),
      find?_deactivateById_other _ _ _ _ (h q (by simp))]

/-- Applying the per-id deactivating updates for a list of ids is the same as
one pass marking every row whose id occurs in the list. -/
theorem foldl_deactivate_eq_map (ids : List Value) (props : List PropertyRow)
    (now : Nat) :
    ids.foldl (fun ps q => deactivateById ps q now) props
      = props.map (fun r =>
          if ids.contains r.id then { r with active := false, last_updated := now }
          else r) := by
  induction ids generalizing props with
  | nil => simp
  | cons q rest ih =>
    rw [List.foldl_cons, ih, deactivateById, List.map_map]
    apply List.map_congr_left
    intro r _
    cases hq : r.id == q with
    | true =>
      have hr : r.id = q := by simpa using hq
      simp [Function.comp, hq, List.contains_cons, hr]
    | false =>
      have hrq : r.id ≠ q := by simpa using hq
      simp [Function.comp, hq, List.contains_cons, hrq]

/-- The properties table after `mark_inactive_properties`, as one map over the
rows (the ids of the table are unique, being its primary key). -/
theorem mark_inactive_props_eq (db : DB) (active_ids : List Value) (src : Value)
    (now : Nat) (hnodup : (db.properties.map PropertyRow.id).Nodup) :
    (mark_inactive_properties db active_ids src now).2.properties
      = db.properties.map (fun r =>
          if r.source == src && r.active &&
              !((if active_ids.isEmpty then [Value.vstr ""] else active_ids).contains r.id)
          then { r with active := false, last_updated := now } else r) := by
  unfold mark_inactive_properties
  dsimp only
  rw [foldl_deactivate_eq_map]
  apply List.map_congr_left
  intro r hr
  set seen := if active_ids.isEmpty then [Value.vstr ""] else active_ids with hseen
  set p : PropertyRow → Bool :=
    fun r => r.source == src && r.active && !(seen.contains r.id) with hp
  have hcond : ((db.properties.filter p).map PropertyRow.id).contains r.id = p r := by
    cases hpr : p r with
    | true =>
      have : r.id ∈ (db.properties.filter p).map PropertyRow.id :=
        List.mem_map_of_mem _ (List.mem_filter.mpr ⟨hr, hpr⟩)
      simpa [List.elem_iff] using this
    | false =>
      cases hc : ((db.properties.filter p).map PropertyRow.id).contains r.id with
      | false => rfl
      | true =>
        exfalso
        have hmem : r.id ∈ (db.properties.filter p).map PropertyRow.id := by
          simpa [List.elem_iff] using hc
        obtain ⟨r', hr', hid⟩ := List.mem_map.mp hmem
        have hr'p : r' ∈ db.properties := List.mem_of_mem_filter hr'
        have : r' = r := List.inj_on_of_nodup_map hnodup hr'p hr hid
        subst this
        rw [(List.mem_filter.mp hr').2] at hpr
        cases hpr
  rw [hcond]

/-- Replacing the unique row with a given id by a row that agrees on an
observation `f` keeps the `f`-image of the whole table. -/
theorem map_replaceRow_eq {β : Type} (props : List PropertyRow) (pid : Value)
    (row row2 : PropertyRow) (f : PropertyRow → β)
    (hnodup : (props.map PropertyRow.id).Nodup)
    (hfind : props.find? (fun r => r.id == pid) = some row)
    (hf : f row2 = f row) :
    (replaceRow props pid row2).map f = props.map f := by
  induction props with
  | nil => simp [List.find?] at hfind
  | cons r rest ih =>
    rw [List.map_cons] at hnodup
    cases h : r.id == pid with
    | true =>
      rw [List.find?_cons, h] at hfind
      injection hfind with hrr
      subst hrr
      have hrest : rest.find? (fun r' => r'.id == pid) = none := by
        rw [List.find?_eq_none]
        intro a ha hpa
        have hids : r.id ∉ rest.map PropertyRow.id := (List.nodup_cons.mp hnodup).1
        exact hids (by
          have h1 : a.id = pid := by simpa using hpa
          have h2 : r.id = pid := by simpa using h
          rw [h2, ← h1]
          exact List.mem_map_of_mem _ ha)
      simp only [replaceRow, if_pos h, List.map_cons, hf,
        replaceRow_of_not_found rest pid row2 hrest]
    | false =>
      rw [List.find?_cons, h] at hfind
      simp only [replaceRow, h, if_neg Bool.false_ne_true, List.map_cons]
      rw [ih (List.nodup_cons.mp hnodup).2 hfind]

/-- Unfolding `mkExtra` one pair at a time. -/
theorem mkExtra_cons (kv : String × Value) (rest : Dict) :
    mkExtra (kv :: rest) =
      if !(non_extra_keys.contains kv.1) then kv :: mkExtra rest else mkExtra rest :=
  List.filter_cons ..

theorem dlookup_mkExtra_excluded (pd : Dict) (k : String)
    (hk : k ∈ non_extra_keys) :
    dlookup (mkExtra pd) k = none := by
  induction pd with
  | nil => rfl
  | cons kv rest ih =>
    obtain ⟨k', v'⟩ := kv
    rw [mkExtra_cons]
    cases h : !(non_extra_keys.contains k') with
    | false => rw [if_neg Bool.false_ne_true]; exact ih
    | true =>
      rw [if_pos rfl]
      have hne : k' ≠ k := by
        intro he
        subst he
        have hkc : non_extra_keys.contains k' = true := List.elem_iff.mpr hk
        rw [hkc] at h
        cases h
      simp only [dlookup, if_neg hne]
      exact ih

theorem dlookup_foldl_dinsert (extra base : Dict) (k : String)
    (h : ∀ kv ∈ extra, kv.1 ≠ k) :
    dlookup (extra.foldl (fun d kv => dinsert d kv.1 kv.2) base) k
      = dlookup base k := by
  induction extra generalizing base with
  | nil => rfl
  | cons kv rest ih =>
    rw [List.foldl_cons, ih _ (fun x hx => h x (by simp [hx])),
      dlookup_dinsert_other _ _ _ _ (h kv (by simp))]

theorem mkExtra_dinsert_excluded (pd : Dict) (k : String) (v : Value)
    (hk : k ∈ non_extra_keys) :
    mkExtra (dinsert pd k v) = mkExtra pd := by
  induction pd with
  | nil => simp [dinsert, mkExtra, hk]
  | cons kv rest ih =>
    obtain ⟨k', v'⟩ := kv
    by_cases h : k' = k
    · subst h
      simp [dinsert, mkExtra, hk]
    · simp only [dinsert, if_neg h]
      rw [mkExtra_cons, mkExtra_cons, ih]

theorem getKey_eq_ok (pd : Dict) (k : String) (v : Value) (h : dlookup pd k = some v) :
    getKey pd k = .ok v := by
  unfold getKey
  rw [h]

theorem getKey_eq_err (pd : Dict) (k : String) (h : dlookup pd k = none) :
    getKey pd k = .error ("KeyError: " ++ k) := by
  unfold getKey
  rw [h]

/-- Evaluating the upsert on an existing row when the comparison loop finds no
difference: only `last_seen` and `active` are written. -/
theorem add_unchanged_eval (db : DB) (pd : Dict) (now : Nat) (pid : Value)
    (row : PropertyRow) (hid : dlookup pd "id" = some pid)
    (hrow : findProperty db pid = some row)
    (hemp : computeChanges row pd = []) :
    add_or_update_property db pd now =
      .ok ("unchanged", [],
        { db with properties :=
            replaceRow db.properties pid { row with last_seen := now, active := true } }) := by
  unfold add_or_update_property
  rw [getKey_eq_ok pd "id" pid hid]
  simp only []
  rw [hrow]
  simp only [hemp, List.isEmpty_nil, if_pos]

/-- Evaluating the upsert on an existing row when the comparison loop found
differences: all core columns, `extra_data`, both timestamps and `active` are
rewritten from the candidate. -/
theorem add_updated_eval (db : DB) (pd : Dict) (now : Nat) (pid : Value)
    (row : PropertyRow) (a c p u : Value)
    (hid : dlookup pd "id" = some pid)
    (hrow : findProperty db pid = some row)
    (hemp : computeChanges row pd ≠ [])
    (hA : dlookup pd "address" = some a) (hC : dlookup pd "city" = some c)
    (hP : dlookup pd "price" = some p) (hU : dlookup pd "url" = some u) :
    add_or_update_property db pd now =
      .ok ("updated", computeChanges row pd,
        { properties := replaceRow db.properties pid
            { row with
              address := a, city := c, price := p,
              area := dgetD pd "area" (.vint 0), rooms := dgetD pd "rooms" (.vint 0),
              property_type := dgetD pd "property_type" (.vstr "Onbekend"),
              url := u, last_seen := now, last_updated := now,
              extra_data := mkExtra pd, active := true },
          history := db.history ++ (computeChanges row pd).map (changeEntry pid now) }) := by
  have hempb : (computeChanges row pd).isEmpty = false := by
    cases hcc : computeChanges row pd with
    | nil => exact absurd hcc hemp
    | cons x xs => rfl
  unfold add_or_update_property
  rw [getKey_eq_ok pd "id" pid hid]
  simp only []
  rw [hrow]
  simp only [hempb, Bool.false_eq_true, if_false]
  rw [getKey_eq_ok pd "address" a hA, getKey_eq_ok pd "city" c hC,
    getKey_eq_ok pd "price" p hP, getKey_eq_ok pd "url" u hU]

/-- Evaluating the upsert when no row with the candidate's id exists: the row
is inserted with defaults for the optional fields and a `new_property` history
entry. -/
theorem add_new_eval (db : DB) (pd : Dict) (now : Nat) (pid : Value)
    (a c p u sv : Value)
    (hid : dlookup pd "id" = some pid)
    (hrow : findProperty db pid = none)
    (hA : dlookup pd "address" = some a) (hC : dlookup pd "city" = some c)
    (hP : dlookup pd "price" = some p) (hU : dlookup pd "url" = some u)
    (hS : dlookup pd "source" = some sv) :
    add_or_update_property db pd now =
      .ok ("new", [],
        { properties := db.properties ++
            [{ id := pid, address := a, city := c, price := p,
               area := dgetD pd "area" (.vint 0), rooms := dgetD pd "rooms" (.vint 0),
               property_type := dgetD pd "property_type" (.vstr "Onbekend"),
               url := u, source := sv,
               first_seen := now, last_seen := now, last_updated := now,
               extra_data := mkExtra pd, active := true }],
          history := db.history ++
            [{ property_id := pid, change_type := "new_property", change_date := now,
               old_value := none,
               new_value := some ("New property: " ++ pyStr a ++ ", " ++ pyStr c) }] }) := by
  unfold add_or_update_property
  rw [getKey_eq_ok pd "id" pid hid]
  simp only []
  rw [hrow]
  simp only []
  rw [getKey_eq_ok pd "address" a hA, getKey_eq_ok pd "city" c hC,
    getKey_eq_ok pd "price" p hP, getKey_eq_ok pd "url" u hU,
    getKey_eq_ok pd "source" sv hS]

theorem getKey_ok_inv (pd : Dict) (k : String) (v : Value)
    (h : getKey pd k = .ok v) : dlookup pd k = some v := by
  unfold getKey at h
  cases hl : dlookup pd k with
  | none => rw [hl] at h; cases h
  | some w => rw [hl] at h; injection h with hw; rw [hw]

/-- Inversion of a successful upsert: the result arose from exactly one of the
three branches of the source (unchanged, updated, new). -/
theorem add_ok_cases (db : DB) (pd : Dict) (now : Nat) (st : String)
    (chs : List Change) (db' : DB)
    (hok : add_or_update_property db pd now = .ok (st, chs, db')) :
    ∃ pid, dlookup pd "id" = some pid ∧
      ((∃ row, findProperty db pid = some row ∧
          ((computeChanges row pd = [] ∧ st = "unchanged" ∧ chs = [] ∧
             db' = { db with properties := replaceRow db.properties pid
                                             { row with last_seen := now, active := true } }) ∨
           (computeChanges row pd ≠ [] ∧ st = "updated" ∧ chs = computeChanges row pd ∧
            ∃ a c p u, dlookup pd "address" = some a ∧ dlookup pd "city" = some c ∧
              dlookup pd "price" = some p ∧ dlookup pd "url" = some u ∧
              db' = { properties := replaceRow db.properties pid
                        { row with
                          address := a, city := c, price := p,
                          area := dgetD pd "area" (.vint 0),
                          rooms := dgetD pd "rooms" (.vint 0),
                          property_type := dgetD pd "property_type" (.vstr "Onbekend"),
                          url := u, last_seen := now, last_updated := now,
                          extra_data := mkExtra pd, active := true },
                      history := db.history ++ chs.map (changeEntry pid now) }))) ∨
       (findProperty db pid = none ∧ st = "new" ∧ chs = [] ∧
        ∃ a c p u sv, dlookup pd "address" = some a ∧ dlookup pd "city" = some c ∧
          dlookup pd "price" = some p ∧ dlookup pd "url" = some u ∧
          dlookup pd "source" = some sv ∧
          db' = { properties := db.properties ++
                    [{ id := pid, address := a, city := c, price := p,
                       area := dgetD pd "area" (.vint 0),
                       rooms := dgetD pd "rooms" (.vint 0),
                       property_type := dgetD pd "property_type" (.vstr "Onbekend"),
                       url := u, source := sv,
                       first_seen := now, last_seen := now, last_updated := now,
                       extra_data := mkExtra pd, active := true }],
                  history := db.history ++
                    [{ property_id := pid, change_type := "new_property",
                       change_date := now, old_value := none,
                       new_value := some ("New property: " ++ pyStr a ++ ", " ++ pyStr c) }] })) := by
  cases hid : dlookup pd "id" with
  | none =>
    exfalso
    unfold add_or_update_property at hok
    rw [getKey_eq_err pd "id" hid] at hok
    simp at hok
  | some pid =>
    refine ⟨pid, rfl, ?_⟩
    cases hfp : findProperty db pid with
    | some row =>
      left
      refine ⟨row, rfl, ?_⟩
      by_cases hcc : computeChanges row pd = []
      · left
        rw [add_unchanged_eval db pd now pid row hid hfp hcc] at hok
        simp only [Except.ok.injEq, Prod.mk.injEq] at hok
        obtain ⟨h1, h2, h3⟩ := hok
        exact ⟨hcc, h1.symm, h2.symm, h3.symm⟩
      · right
        have hempb : (computeChanges row pd).isEmpty = false := by
          cases hcx : computeChanges row pd with
          | nil => exact absurd hcx hcc
          | cons x xs => rfl
        cases hA : dlookup pd "address" with
        | none =>
          exfalso
          unfold add_or_update_property at hok
          rw [getKey_eq_ok pd "id" pid hid] at hok
          simp only [] at hok
          rw [hfp] at hok
          simp only [hempb, Bool.false_eq_true, if_false] at hok
          rw [getKey_eq_err pd "address" hA] at hok
          simp at hok
        | some a =>
          cases hC : dlookup pd "city" with
          | none =>
            exfalso
            unfold add_or_update_property at hok
            rw [getKey_eq_ok pd "id" pid hid] at hok
            simp only [] at hok
            rw [hfp] at hok
            simp only [hempb, Bool.false_eq_true, if_false] at hok
            rw [getKey_eq_ok pd "address" a hA, getKey_eq_err pd "city" hC] at hok
            simp at hok
          | some c =>
            cases hP : dlookup pd "price" with
            | none =>
              exfalso
              unfold add_or_update_property at hok
              rw [getKey_eq_ok pd "id" pid hid] at hok
              simp only [] at hok
              rw [hfp] at hok
              simp only [hempb, Bool.false_eq_true, if_false] at hok
              rw [getKey_eq_ok pd "address" a hA, getKey_eq_ok pd "city" c hC,
                getKey_eq_err pd "price" hP] at hok
              simp at hok
            | some p =>
              cases hU : dlookup pd "url" with
              | none =>
                exfalso
                unfold add_or_update_property at hok
                rw [getKey_eq_ok pd "id" pid hid] at hok
                simp only [] at hok
                rw [hfp] at hok
                simp only [hempb, Bool.false_eq_true, if_false] at hok
                rw [getKey_eq_ok pd "address" a hA, getKey_eq_ok pd "city" c hC,
                  getKey_eq_ok pd "price" p hP, getKey_eq_err pd "url" hU] at hok
                simp at hok
              | some u =>
                rw [add_updated_eval db pd now pid row a c p u hid hfp hcc hA hC hP hU] at hok
                simp only [Except.ok.injEq, Prod.mk.injEq] at hok
                obtain ⟨h1, h2, h3⟩ := hok
                refine ⟨hcc, h1.symm, h2.symm, a, c, p, u, rfl, rfl, rfl, rfl, ?_⟩
                rw [← h3, h2]
    | none =>
      right
      refine ⟨rfl, ?_⟩
      cases hA : dlookup pd "address" with
      | none =>
        exfalso
        unfold add_or_update_property at hok
        rw [getKey_eq_ok pd "id" pid hid] at hok
        simp only [] at hok
        rw [hfp] at hok
        simp only [] at hok
        rw [getKey_eq_err pd "address" hA] at hok
        simp at hok
      | some a =>
        cases hC : dlookup pd "city" with
        | none =>
          exfalso
          unfold add_or_update_property at hok
          rw [getKey_eq_ok pd "id" pid hid] at hok
          simp only [] at hok
          rw [hfp] at hok
          simp only [] at hok
          rw [getKey_eq_ok pd "address" a hA, getKey_eq_err pd "city" hC] at hok
          simp at hok
        | some c =>
          cases hP : dlookup pd "price" with
          | none =>
            exfalso
            unfold add_or_update_property at hok
            rw [getKey_eq_ok pd "id" pid hid] at hok
            simp only [] at hok
            rw [hfp] at hok
            simp only [] at hok
            rw [getKey_eq_ok pd "address" a hA, getKey_eq_ok pd "city" c hC,
              getKey_eq_err pd "price" hP] at hok
            simp at hok
          | some p =>
            cases hU : dlookup pd "url" with
            | none =>
              exfalso
              unfold add_or_update_property at hok
              rw [getKey_eq_ok pd "id" pid hid] at hok
              simp only [] at hok
              rw [hfp] at hok
              simp only [] at hok
              rw [getKey_eq_ok pd "address" a hA, getKey_eq_ok pd "city" c hC,
                getKey_eq_ok pd "price" p hP, getKey_eq_err pd "url" hU] at hok
              simp at hok
            | some u =>
              cases hS : dlookup pd "source" with
              | none =>
                exfalso
                unfold add_or_update_property at hok
                rw [getKey_eq_ok pd "id" pid hid] at hok
                simp only [] at hok
                rw [hfp] at hok
                simp only [] at hok
                rw [getKey_eq_ok pd "address" a hA, getKey_eq_ok pd "city" c hC,
                  getKey_eq_ok pd "price" p hP, getKey_eq_ok pd "url" u hU,
                  getKey_eq_err pd "source" hS] at hok
                simp at hok
              | some sv =>
                rw [add_new_eval db pd now pid a c p u sv hid hfp hA hC hP hU hS] at hok
                simp only [Except.ok.injEq, Prod.mk.injEq] at hok
                obtain ⟨h1, h2, h3⟩ := hok
                exact ⟨h1.symm, h2.symm, a, c, p, u, sv, rfl, rfl, rfl, rfl, rfl, h3.symm⟩

/-- C1 counterexample: upserting a snapshot that changes `price` but omits the
`area` key over a stored record with `area = 50` changes the stored `area`
value (50 becomes the default 0) without appending any `changed_area` history
entry, and the returned diff list mentions only `price`.  This refutes the
claim that every change an upsert makes to a stored core-field value is
recorded as a history entry. -/
theorem C1_counterexample :
    ((add_or_update_property C1db C1pd 1).toOption.map (fun r =>
        (r.1, r.2.1,
         (findProperty r.2.2 (.vstr "a")).map PropertyRow.area,
         (r.2.2.history.filter (fun h => h.change_type == "changed_area")).length)),
     (findProperty C1db (.vstr "a")).map PropertyRow.area)
    = (some ("updated",
        [{ field := "price", old_value := Value.vint 100, new_value := Value.vint 200 }],
        some (Value.vint 0), 0),
       some (Value.vint 50)) := by
  rfl

/-- C1 (amended): for an upsert over an existing stored record, a
`field_changed` history entry is appended for a core field if and only if the
field is a key of the candidate snapshot and its value differs from the stored
one (the appended entries are exactly the returned diff list); when the upsert
reports `updated`, core fields absent from the candidate are overwritten with
the defaults 0 / 0 / "Onbekend" without a history entry. -/
theorem C1_amended (db : DB) (pd : Dict) (now : Nat) (pid : Value)
    (row : PropertyRow) (st : String) (chs : List Change) (db' : DB)
    (hid : dlookup pd "id" = some pid)
    (hrow : findProperty db pid = some row)
    (hok : add_or_update_property db pd now = .ok (st, chs, db')) :
    chs = computeChanges row pd ∧
    db'.history = db.history ++ chs.map (changeEntry pid now) ∧
    (∀ f o n, ({ field := f, old_value := o, new_value := n } : Change) ∈ chs ↔
      (f ∈ core_fields ∧ dlookup pd f = some n ∧ coreGet row f = o ∧ o ≠ n)) ∧
    (st = "updated" →
      (findProperty db' pid).map PropertyRow.area = some (dgetD pd "area" (.vint 0)) ∧
      (findProperty db' pid).map PropertyRow.rooms = some (dgetD pd "rooms" (.vint 0)) ∧
      (findProperty db' pid).map PropertyRow.property_type
        = some (dgetD pd "property_type" (.vstr "Onbekend"))) := by
  obtain ⟨pid', hid', hcases⟩ := add_ok_cases db pd now st chs db' hok
  rw [hid] at hid'
  injection hid' with hpe
  subst hpe
  have hpid : row.id = pid := by
    have := List.find?_some hrow
    simpa using this
  rcases hcases with ⟨row', hrow', hbranch⟩ | ⟨hnone, _⟩
  · rw [hrow] at hrow'
    injection hrow' with hre
    subst hre
    rcases hbranch with ⟨hcc, hst, hchs, hdb⟩ | ⟨hcc, hst, hchs, a, c, p, u, hA, hC, hP, hU, hdb⟩
    · subst hst; subst hchs; subst hdb
      refine ⟨hcc.symm, by simp, ?_, ?_⟩
      · intro f o n
        constructor
        · intro hmem
          exact absurd hmem (by simp)
        · intro hrhs
          have := (mem_computeChanges row pd f o n).mpr hrhs
          rw [hcc] at this
          exact absurd this (by simp)
      · intro h
        exact absurd h (by decide)
    · subst hst; subst hchs; subst hdb
      refine ⟨rfl, rfl, ?_, ?_⟩
      · intro f o n
        exact mem_computeChanges row pd f o n
      · intro _
        have hfind :
            findProperty
              { properties := replaceRow db.properties pid
                  { row with
                    address := a, city := c, price := p,
                    area := dgetD pd "area" (.vint 0),
                    rooms := dgetD pd "rooms" (.vint 0),
                    property_type := dgetD pd "property_type" (.vstr "Onbekend"),
                    url := u, last_seen := now, last_updated := now,
                    extra_data := mkExtra pd, active := true },
                history := db.history ++ (computeChanges row pd).map (changeEntry pid now) }
              pid
            = some { row with
                     address := a, city := c, price := p,
                     area := dgetD pd "area" (.vint 0),
                     rooms := dgetD pd "rooms" (.vint 0),
                     property_type := dgetD pd "property_type" (.vstr "Onbekend"),
                     url := u, last_seen := now, last_updated := now,
                     extra_data := mkExtra pd, active := true } := by
          unfold findProperty
          exact find?_replaceRow_self db.properties pid _ (by rw [show db.properties.find? (fun r => r.id == pid) = some row from hrow]; rfl) hpid
        rw [hfind]
        exact ⟨rfl, rfl, rfl⟩
  · rw [hrow] at hnone
    cases hnone

/-- C1 witness: the amended statement instantiated at the concrete scenario of
the counterexample. -/
theorem C1_amended_witness :
    ([{ field := "price", old_value := Value.vint 100, new_value := Value.vint 200 }] :
        List Change) = computeChanges baseRow C1pd ∧
    C1db2.history = C1db.history ++
      [changeEntry (.vstr "a") 1
        { field := "price", old_value := Value.vint 100, new_value := Value.vint 200 }] ∧
    (∀ f o n, ({ field := f, old_value := o, new_value := n } : Change) ∈
        ([{ field := "price", old_value := Value.vint 100, new_value := Value.vint 200 }] :
          List Change) ↔
      (f ∈ core_fields ∧ dlookup C1pd f = some n ∧ coreGet baseRow f = o ∧ o ≠ n)) ∧
    ("updated" = "updated" →
      (findProperty C1db2 (.vstr "a")).map PropertyRow.area
          = some (dgetD C1pd "area" (.vint 0)) ∧
      (findProperty C1db2 (.vstr "a")).map PropertyRow.rooms
          = some (dgetD C1pd "rooms" (.vint 0)) ∧
      (findProperty C1db2 (.vstr "a")).map PropertyRow.property_type
          = some (dgetD C1pd "property_type" (.vstr "Onbekend"))) :=
  C1_amended C1db C1pd 1 (.vstr "a") baseRow "updated"
    [{ field := "price", old_value := Value.vint 100, new_value := Value.vint 200 }] C1db2
    rfl rfl rfl

/-- C2 code bug: the detector appends the listing's id to the seen set even
when the upsert fails with a persistence error, so the stored entity stays
active and is not reported removed; had the failed id not been counted as
seen, the sweep would have deactivated it (third conjunct).  The spec requires
that seen ids be tracked only from successful upserts. -/
theorem C2_code_bug :
    add_or_update_flt C2fault C2db (dinsert C2pd "source" (.vstr "s")) 10
        = .ok ("error", [], C2db) ∧
    ((process_listings C2fault C2db [C2pd] "s" 10).toOption.map (fun r =>
        (r.1.removed, (findProperty r.2.1 (.vstr "x")).map PropertyRow.active)))
      = some ([], some true) ∧
    (mark_inactive_properties C2db [] (.vstr "s") 11).1 = [.vstr "x"] :=
  ⟨rfl, rfl, rfl⟩

/-- C3 counterexample: with an empty seen set the source renders the SQL
clause as `id NOT IN ('')`, so an active record of the source whose id is the
empty string is not deactivated, refuting the claim that an empty `seen_ids`
deactivates every currently-active record of the source. -/
theorem C3_counterexample :
    mark_inactive_properties C3db [] (.vstr "s") 5 = ([], C3db) ∧
    (findProperty C3db (.vstr "")).map PropertyRow.active = some true :=
  ⟨rfl, rfl⟩

/-- C3 (amended): `mark_inactive_properties` deactivates exactly the records
of the given source that are active and whose id is not in the effective seen
set — `seen_ids` itself when non-empty, the singleton empty string when
`seen_ids` is empty — appending one `property_inactive` history entry per
deactivated id, returning exactly those ids, and leaving every row of any
other source (indeed every non-matching row) unchanged. -/
theorem C3_amended (db : DB) (active_ids : List Value) (src : Value) (now : Nat)
    (hnodup : (db.properties.map PropertyRow.id).Nodup) :
    (mark_inactive_properties db active_ids src now).1
      = (db.properties.filter (fun r => r.source == src && r.active &&
          !((if active_ids.isEmpty then [Value.vstr ""] else active_ids).contains r.id))).map
          PropertyRow.id ∧
    (mark_inactive_properties db active_ids src now).2.properties
      = db.properties.map (fun r =>
          if r.source == src && r.active &&
              !((if active_ids.isEmpty then [Value.vstr ""] else active_ids).contains r.id)
          then { r with active := false, last_updated := now } else r) ∧
    (mark_inactive_properties db active_ids src now).2.history
      = db.history ++ ((mark_inactive_properties db active_ids src now).1).map
          (fun pid => inactiveEntry pid now) :=
  ⟨rfl, mark_inactive_props_eq db active_ids src now hnodup, rfl⟩

/-- C3 witness: a two-source store swept for source `s` with seen set
`{zz}`: the active `s`-record `k` is deactivated and returned, the
`t`-record `m` is untouched. -/
theorem C3_amended_witness :
    (mark_inactive_properties C3wdb [Value.vstr "zz"] (.vstr "s") 7).1
        = [Value.vstr "k"] ∧
    (mark_inactive_properties C3wdb [Value.vstr "zz"] (.vstr "s") 7).2.properties
        = [{ baseRow with id := .vstr "k", active := false, last_updated := 7 },
           { baseRow with id := .vstr "m", source := .vstr "t" }] ∧
    (mark_inactive_properties C3wdb [Value.vstr "zz"] (.vstr "s") 7).2.history
        = [inactiveEntry (.vstr "k") 7] :=
  C3_amended C3wdb [Value.vstr "zz"] (.vstr "s") 7 (by decide)

/-- C4 code bug: a snapshot missing the mandatory `price` key is not rejected
before the Store: the Store call itself is invoked and raises `KeyError`
(second conjunct), and that exception propagates out of the batch loop, so
the whole batch aborts and the remaining valid snapshot is never processed
(first conjunct: the batch returns an error, not a result). -/
theorem C4_code_bug :
    process_listings nofault { properties := [], history := [] } [C4bad, C4good] "s" 0
        = .error "KeyError: price" ∧
    add_or_update_property { properties := [], history := [] }
        (dinsert C4bad "source" (.vstr "s")) 0 = .error "KeyError: price" :=
  ⟨rfl, rfl⟩

/-- C6 counterexample: the inactivation sweep writes `last_updated = ?` in its
`UPDATE` (src/property_db.py line 299), so deactivating a record changes its
`last_updated` (here from 5 to 9), refuting the claim that the sweep leaves
`last_updated` untouched. -/
theorem C6_counterexample :
    ((findProperty C6db (.vstr "a")).map PropertyRow.last_updated,
     (findProperty (mark_inactive_properties C6db [] (.vstr "s") 9).2 (.vstr "a")).map
       PropertyRow.last_updated,
     (findProperty (mark_inactive_properties C6db [] (.vstr "s") 9).2 (.vstr "a")).map
       PropertyRow.active)
    = (some 5, some 9, some false) := rfl

/-- C6 (amended): an upsert that returns `Unchanged` leaves every row's
`last_updated` as it was; the inactivation sweep sets `last_updated` to the
sweep time on exactly the rows it deactivates and leaves it untouched on all
other rows. -/
theorem C6_amended (db : DB) (pd : Dict) (now now2 : Nat) (seen : List Value)
    (src : Value) (chs : List Change) (db1 : DB)
    (hnodup : (db.properties.map PropertyRow.id).Nodup)
    (hok : add_or_update_property db pd now = .ok ("unchanged", chs, db1)) :
    db1.properties.map PropertyRow.last_updated
      = db.properties.map PropertyRow.last_updated ∧
    (mark_inactive_properties db seen src now2).2.properties
      = db.properties.map (fun r =>
          if r.source == src && r.active &&
              !((if seen.isEmpty then [Value.vstr ""] else seen).contains r.id)
          then { r with active := false, last_updated := now2 } else r) := by
  constructor
  · obtain ⟨pid, hid, hcases⟩ := add_ok_cases db pd now "unchanged" chs db1 hok
    rcases hcases with ⟨row, hrow, hbranch⟩ | ⟨_, hst, _⟩
    · rcases hbranch with ⟨hcc, _, hchs, hdb⟩ | ⟨_, hst, _⟩
      · subst hdb
        exact map_replaceRow_eq db.properties pid row
          { row with last_seen := now, active := true } PropertyRow.last_updated
          hnodup hrow rfl
      · exact absurd hst (by decide)
    · exact absurd hst (by decide)
  · exact mark_inactive_props_eq db seen src now2 hnodup

/-- C6 witness: the amended statement at a concrete store: an unchanged upsert
keeps `last_updated` 5, and a sweep at tick 9 with seen set `{q}` rewrites it
only on the deactivated row. -/
theorem C6_amended_witness :
    C6db1.properties.map PropertyRow.last_updated
      = C6db.properties.map PropertyRow.last_updated ∧
    (mark_inactive_properties C6db [Value.vstr "q"] (.vstr "s") 9).2.properties
      = [{ baseRow with last_updated := 9, active := false }] :=
  C6_amended C6db C6wpd 11 9 [Value.vstr "q"] (.vstr "s") [] C6db1 (by decide) rfl

/-- C7: upserting the same snapshot twice into a store that does not contain
its id (and holds no history for it) returns `new` then `unchanged`, and the
store afterwards holds exactly one history entry for that entity: the created
one. -/
theorem C7 (db : DB) (pd : Dict) (pid a c p u sv : Value) (t1 t2 : Nat)
    (hid : dlookup pd "id" = some pid)
    (ha : dlookup pd "address" = some a) (hc : dlookup pd "city" = some c)
    (hp : dlookup pd "price" = some p) (hu : dlookup pd "url" = some u)
    (hs : dlookup pd "source" = some sv)
    (habsent : findProperty db pid = none)
    (hhist : db.history.filter (fun h => h.property_id == pid) = []) :
    ∃ db1 db2,
      add_or_update_property db pd t1 = .ok ("new", [], db1) ∧
      add_or_update_property db1 pd t2 = .ok ("unchanged", [], db2) ∧
      db2.history.filter (fun h => h.property_id == pid) =
        [{ property_id := pid, change_type := "new_property", change_date := t1,
           old_value := none,
           new_value := some ("New property: " ++ pyStr a ++ ", " ++ pyStr c) }] := by
  set row1 : PropertyRow :=
    { id := pid, address := a, city := c, price := p,
      area := dgetD pd "area" (.vint 0), rooms := dgetD pd "rooms" (.vint 0),
      property_type := dgetD pd "property_type" (.vstr "Onbekend"),
      url := u, source := sv, first_seen := t1, last_seen := t1,
      last_updated := t1, extra_data := mkExtra pd, active := true } with hrow1
  set e1 : HistoryEntry :=
    { property_id := pid, change_type := "new_property", change_date := t1,
      old_value := none,
      new_value := some ("New property: " ++ pyStr a ++ ", " ++ pyStr c) } with he1
  set db1 : DB :=
    { properties := db.properties ++ [row1], history := db.history ++ [e1] } with hdb1
  have h1 : add_or_update_property db pd t1 = .ok ("new", [], db1) :=
    add_new_eval db pd t1 pid a c p u sv hid habsent ha hc hp hu hs
  have hf : findProperty db1 pid = some row1 := by
    rw [hdb1]
    show (db.properties ++ [row1]).find? (fun r => r.id == pid) = some row1
    rw [List.find?_append,
      show db.properties.find? (fun r => r.id == pid) = none from habsent]
    have hbe : (row1.id == pid) = true := by rw [hrow1]; simp
    simp [List.find?, hbe]
  have hcc : computeChanges row1 pd = [] := by
    rw [hrow1]
    unfold computeChanges
    rw [List.filterMap_eq_nil_iff]
    intro f hf
    simp only [core_fields, List.mem_cons, List.not_mem_nil, or_false] at hf
    rcases hf with rfl | rfl | rfl | rfl | rfl | rfl
    · rw [hp]; simp [coreGet]
    · cases hl : dlookup pd "area" with
      | none => rfl
      | some v => simp [coreGet, dgetD, hl]
    · cases hl : dlookup pd "rooms" with
      | none => rfl
      | some v => simp [coreGet, dgetD, hl]
    · cases hl : dlookup pd "property_type" with
      | none => rfl
      | some v => simp [coreGet, dgetD, hl]
    · rw [ha]; simp [coreGet]
    · rw [hc]; simp [coreGet]
  have h2 := add_unchanged_eval db1 pd t2 pid row1 hid hf hcc
  refine ⟨db1, _, h1, h2, ?_⟩
  show (db1.history).filter (fun h => h.property_id == pid) = _
  rw [hdb1]
  show (db.history ++ [e1]).filter (fun h => h.property_id == pid) = _
  rw [List.filter_append, hhist]
  simp [List.filter, he1]

/-- C7 witness: the idempotence statement at a concrete snapshot over the
empty store. -/
theorem C7_witness :
    ∃ db1 db2,
      add_or_update_property { properties := [], history := [] } C7wpd 5
          = .ok ("new", [], db1) ∧
      add_or_update_property db1 C7wpd 6 = .ok ("unchanged", [], db2) ∧
      db2.history.filter (fun h => h.property_id == Value.vstr "n1") =
        [{ property_id := .vstr "n1", change_type := "new_property", change_date := 5,
           old_value := none,
           new_value := some ("New property: " ++ pyStr (.vstr "B 2") ++ ", " ++
             pyStr (.vstr "R")) }] :=
  C7 { properties := [], history := [] } C7wpd (.vstr "n1") (.vstr "B 2") (.vstr "R")
    (.vint 300) (.vstr "u2") (.vstr "s") 5 6 rfl rfl rfl rfl rfl rfl rfl rfl

/-- C8 counterexample: with a default-constructed filter (no arguments), a
record priced 10000001 satisfies every clause of the claim under its
"unbounded by default" reading (the lower bound, the area bound, and both
wildcard clauses hold), yet `matches` returns `false`, because the source's
default `max_price` is the finite 10000000. -/
theorem C8_counterexample :
    PropertyFilter.matches {} C8pd = .ok false ∧
    ({} : PropertyFilter).min_price ≤ 10000001 ∧
    ({} : PropertyFilter).min_area ≤ 80 ∧
    ({} : PropertyFilter).cities = [] ∧
    ({} : PropertyFilter).property_types = [] :=
  ⟨rfl, by decide, by decide, rfl, rfl⟩

/-- C8 (amended): for a record whose price/area values are integers and whose
city/type values are strings (after the source's `.get` defaults), `matches`
accepts exactly the conjunction of: price within `[min_price, max_price]`
(default bounds 0 and 10000000, not unbounded), area at least `min_area`,
city containing some configured city case-insensitively when the city list is
non-empty, and property type belonging to the configured set when non-empty;
empty lists act as wildcards. -/
theorem C8_amended (f : PropertyFilter) (pd : Dict) (p a : Int)
    (city pt : String)
    (hp : dgetD pd "price" (.vint 0) = .vint p)
    (ha : dgetD pd "area" (.vint 0) = .vint a)
    (hc : dgetD pd "city" (.vstr "") = .vstr city)
    (hpt : dgetD pd "property_type" (.vstr "") = .vstr pt) :
    PropertyFilter.matches f pd = .ok true ↔
      ((f.min_price ≤ p ∧ p ≤ f.max_price) ∧ f.min_area ≤ a ∧
       (f.cities = [] ∨ ∃ c ∈ f.cities,
         subList (String.toLower c).toList (String.toLower city).toList = true) ∧
       (f.property_types = [] ∨ pt ∈ f.property_types)) := by
  unfold PropertyFilter.matches
  rw [hp, ha, hc, hpt]
  simp only [asInt, asStr]
  by_cases h1 : p < f.min_price
  · simp [h1, not_le.mpr h1]
  · by_cases h2 : p > f.max_price
    · simp [h1, h2, not_le.mpr h2, not_lt.mp h1]
    · have hple : f.min_price ≤ p := not_lt.mp h1
      have hpri : p ≤ f.max_price := not_lt.mp h2
      by_cases h3 : a < f.min_area
      · simp [h1, h2, h3, not_le.mpr h3, hple, hpri]
      · have hale : f.min_area ≤ a := not_lt.mp h3
        by_cases h4 : f.cities = []
        · by_cases h5 : f.property_types = []
          · simp [h1, h2, h3, h4, h5, hple, hpri, hale]
          · simp [h1, h2, h3, h4, h5, hple, hpri, hale, List.isEmpty_iff,
              List.elem_iff]
        · by_cases h6 : f.cities.any (fun c =>
              subList (String.toLower c).toList (String.toLower city).toList) = true
          · have h6' : ∃ x ∈ f.cities,
                subList x.toLower.data city.toLower.data = true := by
              simpa [String.toList] using List.any_eq_true.mp h6
            by_cases h5 : f.property_types = []
            · simp [h1, h2, h3, h4, h5, h6', hple, hpri, hale, List.isEmpty_iff,
                List.any_eq_true]
            · simp [h1, h2, h3, h4, h5, h6', hple, hpri, hale, List.isEmpty_iff,
                List.any_eq_true, List.elem_iff]
          · have h6' : ¬ ∃ x ∈ f.cities,
                subList x.toLower.data city.toLower.data = true := by
              intro hex
              exact h6 (by simpa [String.toList] using List.any_eq_true.mpr hex)
            simp [h1, h2, h3, h4, h6', hple, hpri, hale, List.isEmpty_iff,
              List.any_eq_true]

/-- One detector loop iteration, described from the caller's side: it appends
the source-stamped listing (with its optional `changes` annotation) to the
processed snapshots, and extends `new` or `updated` with that same snapshot
or neither. -/
theorem processOne_spec (fault : Value → Bool) (src : String) (s s' : LoopState)
    (l : Dict) (h : processOne fault src s l = .ok s') :
    ∃ sn : Snap, sn.1 = dinsert l "source" (.vstr src) ∧
      s'.snaps = s.snaps ++ [sn] ∧
      ((s'.new = s.new ∧ s'.updated = s.updated) ∨
       (s'.new = s.new ++ [sn] ∧ s'.updated = s.updated ∧ sn.2 = none) ∨
       (s'.new = s.new ∧ s'.updated = s.updated ++ [sn] ∧
        ∃ chs, sn.2 = some chs ∧ chs ≠ [])) := by
  unfold processOne at h
  simp only [] at h
  cases hadd : add_or_update_flt fault s.db (dinsert l "source" (.vstr src)) s.t with
  | error e => rw [hadd] at h; simp at h
  | ok r =>
    obtain ⟨status, changes, db2⟩ := r
    rw [hadd] at h
    simp only [] at h
    cases hgid : getKey (dinsert l "source" (.vstr src)) "id" with
    | error e => rw [hgid] at h; simp at h
    | ok pid =>
      rw [hgid] at h
      simp only [] at h
      by_cases hnew : status = "new"
      · subst hnew
        rw [if_pos rfl] at h
        have hc1 : ¬(("new" : String) = "updated" ∧ changes ≠ []) := by
          intro hx
          exact absurd hx.1 (by decide)
        rw [if_neg hc1] at h
        injection h with h'
        subst h'
        exact ⟨(dinsert l "source" (.vstr src), none), rfl, rfl,
          Or.inr (Or.inl ⟨rfl, rfl, rfl⟩)⟩
      · rw [if_neg hnew] at h
        by_cases hupd : status = "updated" ∧ changes ≠ []
        · rw [if_pos hupd, if_pos hupd] at h
          injection h with h'
          subst h'
          exact ⟨(dinsert l "source" (.vstr src), some changes), rfl, rfl,
            Or.inr (Or.inr ⟨rfl, rfl, changes, rfl, hupd.2⟩)⟩
        · rw [if_neg hupd, if_neg hupd] at h
          injection h with h'
          subst h'
          exact ⟨(dinsert l "source" (.vstr src), none), rfl, rfl, Or.inl ⟨rfl, rfl⟩⟩

/-- Invariant of the detector's listing loop: the processed snapshots are the
inputs in order, each stamped with the source, and the `new` / `updated`
accumulators only gain processed snapshots with the matching annotation. -/
theorem fold_process_inv (fault : Value → Bool) (src : String) (ls : List Dict)
    (s0 s : LoopState)
    (h : ls.foldlM (processOne fault src) s0 = .ok s) :
    s.snaps.map Prod.fst
        = s0.snaps.map Prod.fst ++ ls.map (fun l => dinsert l "source" (.vstr src)) ∧
    (∀ sn, sn ∈ s.new → sn ∈ s0.new ∨ (sn ∈ s.snaps ∧ sn.2 = none)) ∧
    (∀ sn, sn ∈ s.updated → sn ∈ s0.updated ∨
      (sn ∈ s.snaps ∧ ∃ chs, sn.2 = some chs ∧ chs ≠ [])) ∧
    (∃ tl, s.snaps = s0.snaps ++ tl) := by
  induction ls generalizing s0 with
  | nil =>
    rw [List.foldlM_nil, show (pure s0 : Except String LoopState) = .ok s0 from rfl] at h
    injection h with h'
    subst h'
    exact ⟨by simp, fun sn hsn => Or.inl hsn, fun sn hsn => Or.inl hsn, [], by simp⟩
  | cons l ls ih =>
    rw [List.foldlM_cons] at h
    cases h1 : processOne fault src s0 l with
    | error e =>
      rw [h1, show ((Except.error e : Except String LoopState) >>=
          ls.foldlM (processOne fault src)) = .error e from rfl] at h
      exact Except.noConfusion h
    | ok s1 =>
      rw [h1, show ((Except.ok s1 : Except String LoopState) >>= ls.foldlM (processOne fault src))
          = ls.foldlM (processOne fault src) s1 from rfl] at h
      obtain ⟨hm, hn, hu, htl⟩ := ih s1 h
      obtain ⟨sn, hsn1, hsnaps, hdisj⟩ := processOne_spec fault src s0 s1 l h1
      have hsnmem : sn ∈ s.snaps := by
        obtain ⟨tl, htl'⟩ := htl
        rw [htl', hsnaps]
        simp
      refine ⟨?_, ?_, ?_, ?_⟩
      · rw [hm, hsnaps, List.map_append]
        simp [hsn1]
      · intro x hx
        rcases hn x hx with hx0 | hx1
        · rcases hdisj with ⟨he1, _⟩ | ⟨he1, _, he3⟩ | ⟨he1, _, _⟩
          · rw [he1] at hx0; exact Or.inl hx0
          · rw [he1] at hx0
            rcases List.mem_append.mp hx0 with hx2 | hx2
            · exact Or.inl hx2
            · obtain rfl : x = sn := by simpa using hx2
              exact Or.inr ⟨hsnmem, he3⟩
          · rw [he1] at hx0; exact Or.inl hx0
        · exact Or.inr hx1
      · intro x hx
        rcases hu x hx with hx0 | hx1
        · rcases hdisj with ⟨_, he2⟩ | ⟨_, he2, _⟩ | ⟨_, he2, he3⟩
          · rw [he2] at hx0; exact Or.inl hx0
          · rw [he2] at hx0; exact Or.inl hx0
          · rw [he2] at hx0
            rcases List.mem_append.mp hx0 with hx2 | hx2
            · exact Or.inl hx2
            · obtain rfl : x = sn := by simpa using hx2
              exact Or.inr ⟨hsnmem, he3⟩
        · exact Or.inr hx1
      · obtain ⟨tl, htl'⟩ := htl
        exact ⟨sn :: tl, by rw [htl', hsnaps]; simp⟩

/-- C9: the detector returns the caller's snapshots themselves: after a
successful batch every processed snapshot is the input dict with `source`
written into it (in input order), every element of `new` is one of those
mutated snapshots with no `changes` annotation, and every element of
`updated` is one of them with a non-empty `changes` list attached; neither
list contains records fetched from the Store. -/
theorem C9 (fault : Value → Bool) (db : DB) (listings : List Dict) (src : String)
    (t : Nat) (res : BatchResult) (db' : DB) (snaps : List Snap)
    (hok : process_listings fault db listings src t = .ok (res, db', snaps)) :
    snaps.map Prod.fst = listings.map (fun l => dinsert l "source" (.vstr src)) ∧
    (∀ sn ∈ snaps, dlookup sn.1 "source" = some (.vstr src)) ∧
    (∀ sn ∈ res.new, sn ∈ snaps ∧ sn.2 = none) ∧
    (∀ sn ∈ res.updated, sn ∈ snaps ∧ ∃ chs, sn.2 = some chs ∧ chs ≠ []) := by
  unfold process_listings at hok
  cases hf : listings.foldlM (processOne fault src)
      { db := db, new := [], updated := [], active_ids := [], snaps := [], t := t } with
  | error e => rw [hf] at hok; exact Except.noConfusion hok
  | ok s =>
    rw [hf] at hok
    simp only [] at hok
    simp only [Except.ok.injEq, Prod.mk.injEq] at hok
    obtain ⟨hres, hdb, hsnaps⟩ := hok
    subst hres; subst hdb; subst hsnaps
    obtain ⟨hm, hn, hu, _⟩ := fold_process_inv fault src listings _ s hf
    refine ⟨by simpa using hm, ?_, ?_, ?_⟩
    · intro sn hsn
      have h1 : sn.1 ∈ s.snaps.map Prod.fst := List.mem_map_of_mem _ hsn
      rw [hm] at h1
      simp only [List.map_nil, List.nil_append] at h1
      obtain ⟨l, _, hl⟩ := List.mem_map.mp h1
      rw [← hl]
      exact dlookup_dinsert_self l "source" (.vstr src)
    · intro sn hsn
      rcases hn sn hsn with h0 | h1
      · exact absurd h0 (List.not_mem_nil sn)
      · exact h1
    · intro sn hsn
      rcases hu sn hsn with h0 | h1
      · exact absurd h0 (List.not_mem_nil sn)
      · exact h1

/-- C9 witness: a one-snapshot batch over the empty store. -/
theorem C9_witness :
    C9snaps.map Prod.fst = [C9wpd].map (fun l => dinsert l "source" (.vstr "s")) ∧
    (∀ sn ∈ C9snaps, dlookup sn.1 "source" = some (.vstr "s")) ∧
    (∀ sn ∈ C9res.new, sn ∈ C9snaps ∧ sn.2 = none) ∧
    (∀ sn ∈ C9res.updated, sn ∈ C9snaps ∧ ∃ chs, sn.2 = some chs ∧ chs ≠ []) :=
  C9 nofault { properties := [], history := [] } [C9wpd] "s" 0 C9res C9db2 C9snaps rfl

theorem mkExtra_keys (pd : Dict) (k : String) (hk : k ∈ non_extra_keys) :
    ∀ kv ∈ mkExtra pd, kv.1 ≠ k := by
  intro kv hkv he
  have h2 := (List.mem_filter.mp hkv).2
  have hc : non_extra_keys.contains k = true := List.elem_iff.mpr hk
  rw [he, hc] at h2
  exact absurd h2 (by decide)

/-- Looking up a column name in the flattened `get_property` view reads the
column when no extra key shadows it. -/
theorem dlookup_rowToDict_no_extra (r : PropertyRow) (k : String)
    (hk : ∀ kv ∈ r.extra_data, kv.1 ≠ k) :
    dlookup (rowToDict r) k = dlookup
      [("id", r.id), ("address", r.address), ("city", r.city), ("price", r.price),
       ("area", r.area), ("rooms", r.rooms), ("property_type", r.property_type),
       ("url", r.url), ("source", r.source),
       ("first_seen", .vstr (toString r.first_seen)),
       ("last_seen", .vstr (toString r.last_seen)),
       ("last_updated", .vstr (toString r.last_updated)),
       ("active", .vint (if r.active then 1 else 0))] k := by
  unfold rowToDict
  exact dlookup_foldl_dinsert r.extra_data _ k hk

theorem dlookup_withDefaults (pd : Dict) (k : String)
    (h1 : k ≠ "area") (h2 : k ≠ "rooms") (h3 : k ≠ "property_type") :
    dlookup (withDefaults pd) k = dlookup pd k := by
  unfold withDefaults
  rw [dlookup_dinsert_other _ _ _ _ (Ne.symm h3),
    dlookup_dinsert_other _ _ _ _ (Ne.symm h2),
    dlookup_dinsert_other _ _ _ _ (Ne.symm h1)]

theorem dgetD_withDefaults_area (pd : Dict) :
    dgetD (withDefaults pd) "area" (.vint 0) = .vint 0 := by
  unfold withDefaults dgetD
  rw [dlookup_dinsert_other _ _ _ _ (by decide),
    dlookup_dinsert_other _ _ _ _ (by decide), dlookup_dinsert_self]
  rfl

theorem dgetD_withDefaults_rooms (pd : Dict) :
    dgetD (withDefaults pd) "rooms" (.vint 0) = .vint 0 := by
  unfold withDefaults dgetD
  rw [dlookup_dinsert_other _ _ _ _ (by decide), dlookup_dinsert_self]
  rfl

theorem dgetD_withDefaults_ptype (pd : Dict) :
    dgetD (withDefaults pd) "property_type" (.vstr "Onbekend") = .vstr "Onbekend" := by
  unfold withDefaults dgetD
  rw [dlookup_dinsert_self]
  rfl

theorem mkExtra_withDefaults (pd : Dict) : mkExtra (withDefaults pd) = mkExtra pd := by
  unfold withDefaults
  rw [mkExtra_dinsert_excluded _ _ _ (by decide),
    mkExtra_dinsert_excluded _ _ _ (by decide),
    mkExtra_dinsert_excluded _ _ _ (by decide)]

/-- Two candidate dicts that agree on every value the creation branch reads
produce identical upserts over a store that lacks the id. -/
theorem add_new_congr (db : DB) (pd pd' : Dict) (t : Nat) (pid : Value)
    (hid : dlookup pd "id" = some pid) (hid' : dlookup pd' "id" = some pid)
    (hnone : findProperty db pid = none)
    (hA : dlookup pd' "address" = dlookup pd "address")
    (hC : dlookup pd' "city" = dlookup pd "city")
    (hP : dlookup pd' "price" = dlookup pd "price")
    (hU : dlookup pd' "url" = dlookup pd "url")
    (hS : dlookup pd' "source" = dlookup pd "source")
    (harea : dgetD pd' "area" (.vint 0) = dgetD pd "area" (.vint 0))
    (hrooms : dgetD pd' "rooms" (.vint 0) = dgetD pd "rooms" (.vint 0))
    (hpt : dgetD pd' "property_type" (.vstr "Onbekend")
      = dgetD pd "property_type" (.vstr "Onbekend"))
    (hex : mkExtra pd' = mkExtra pd) :
    add_or_update_property db pd t = add_or_update_property db pd' t := by
  unfold add_or_update_property
  rw [getKey_eq_ok pd "id" pid hid, getKey_eq_ok pd' "id" pid hid']
  simp only []
  rw [hnone]
  simp only []
  unfold getKey
  rw [hA, hC, hP, hU, hS, harea, hrooms, hpt, hex]

/-- C10: when a snapshot omits `area`, `rooms` and `property_type`, a
creating or updating upsert stores the defaults 0, 0 and "Onbekend"; the
flattened `get_property` view returns exactly those defaults; creating from
such a snapshot is indistinguishable from creating from the snapshot with the
defaults written explicitly (the upserts are equal results); and when both
snapshots drive an updating upsert, the subsequent `get_property` views agree.
-/
theorem C10 (db : DB) (pd : Dict) (pid : Value) (t : Nat)
    (hid : dlookup pd "id" = some pid)
    (hna : dlookup pd "area" = none) (hnr : dlookup pd "rooms" = none)
    (hnp : dlookup pd "property_type" = none) :
    (∀ st chs db1, add_or_update_property db pd t = .ok (st, chs, db1) →
       (st = "new" ∨ st = "updated") →
       ((findProperty db1 pid).map PropertyRow.area = some (.vint 0) ∧
        (findProperty db1 pid).map PropertyRow.rooms = some (.vint 0) ∧
        (findProperty db1 pid).map PropertyRow.property_type = some (.vstr "Onbekend") ∧
        (get_property db1 pid).bind (fun d => dlookup d "area") = some (.vint 0) ∧
        (get_property db1 pid).bind (fun d => dlookup d "rooms") = some (.vint 0) ∧
        (get_property db1 pid).bind (fun d => dlookup d "property_type")
          = some (.vstr "Onbekend"))) ∧
    (findProperty db pid = none →
       add_or_update_property db pd t = add_or_update_property db (withDefaults pd) t) ∧
    (∀ chsA chsB dbA dbB,
       add_or_update_property db pd t = .ok ("updated", chsA, dbA) →
       add_or_update_property db (withDefaults pd) t = .ok ("updated", chsB, dbB) →
       get_property dbA pid = get_property dbB pid) := by
  have harea : dgetD pd "area" (.vint 0) = .vint 0 := by unfold dgetD; rw [hna]; rfl
  have hrooms : dgetD pd "rooms" (.vint 0) = .vint 0 := by unfold dgetD; rw [hnr]; rfl
  have hpt : dgetD pd "property_type" (.vstr "Onbekend") = .vstr "Onbekend" := by
    unfold dgetD; rw [hnp]; rfl
  have hview : ∀ row2 : PropertyRow, row2.area = .vint 0 → row2.rooms = .vint 0 →
      row2.property_type = .vstr "Onbekend" → row2.extra_data = mkExtra pd →
      ∀ db1 : DB, findProperty db1 pid = some row2 →
      ((findProperty db1 pid).map PropertyRow.area = some (.vint 0) ∧
       (findProperty db1 pid).map PropertyRow.rooms = some (.vint 0) ∧
       (findProperty db1 pid).map PropertyRow.property_type = some (.vstr "Onbekend") ∧
       (get_property db1 pid).bind (fun d => dlookup d "area") = some (.vint 0) ∧
       (get_property db1 pid).bind (fun d => dlookup d "rooms") = some (.vint 0) ∧
       (get_property db1 pid).bind (fun d => dlookup d "property_type")
         = some (.vstr "Onbekend")) := by
    intro row2 e1 e2 e3 e4 db1 hf
    have hga : dlookup (rowToDict row2) "area" = some (.vint 0) := by
      rw [dlookup_rowToDict_no_extra row2 "area"
        (by rw [e4]; exact mkExtra_keys pd "area" (by decide))]
      simp [dlookup, e1]
    have hgr : dlookup (rowToDict row2) "rooms" = some (.vint 0) := by
      rw [dlookup_rowToDict_no_extra row2 "rooms"
        (by rw [e4]; exact mkExtra_keys pd "rooms" (by decide))]
      simp [dlookup, e2]
    have hgp : dlookup (rowToDict row2) "property_type" = some (.vstr "Onbekend") := by
      rw [dlookup_rowToDict_no_extra row2 "property_type"
        (by rw [e4]; exact mkExtra_keys pd "property_type" (by decide))]
      simp [dlookup, e3]
    refine ⟨by rw [hf]; simp [e1], by rw [hf]; simp [e2], by rw [hf]; simp [e3],
      ?_, ?_, ?_⟩
    · unfold get_property
      rw [hf]
      simpa using hga
    · unfold get_property
      rw [hf]
      simpa using hgr
    · unfold get_property
      rw [hf]
      simpa using hgp
  refine ⟨?_, ?_, ?_⟩
  · intro st chs db1 hok hst
    obtain ⟨pid', hid', hcases⟩ := add_ok_cases db pd t st chs db1 hok
    rw [hid] at hid'
    injection hid' with hpe
    subst hpe
    rcases hcases with ⟨row, hrow, hbr⟩ |
      ⟨hnone, hstn, hchs, a, c, p, u, sv, hA, hC, hP, hU, hS, hdb⟩
    · rcases hbr with ⟨_, hstu, _, _⟩ | ⟨hcc, _, hchs, a, c, p, u, hA, hC, hP, hU, hdb⟩
      · subst hstu
        rcases hst with h | h <;> exact absurd h (by decide)
      · subst hdb
        have hrowid : row.id = pid := by
          have := List.find?_some hrow
          simpa using this
        have hfind2 := find?_replaceRow_self db.properties pid
          { row with
            address := a, city := c, price := p,
            area := dgetD pd "area" (.vint 0), rooms := dgetD pd "rooms" (.vint 0),
            property_type := dgetD pd "property_type" (.vstr "Onbekend"),
            url := u, last_seen := t, last_updated := t,
            extra_data := mkExtra pd, active := true }
          (by rw [show db.properties.find? (fun r => r.id == pid) = some row from hrow]
              rfl)
          hrowid
        exact hview _ harea hrooms hpt rfl _ hfind2
    · subst hdb
      have hfind2 : findProperty
          { properties := db.properties ++
              [{ id := pid, address := a, city := c, price := p,
                 area := dgetD pd "area" (.vint 0),
                 rooms := dgetD pd "rooms" (.vint 0),
                 property_type := dgetD pd "property_type" (.vstr "Onbekend"),
                 url := u, source := sv,
                 first_seen := t, last_seen := t, last_updated := t,
                 extra_data := mkExtra pd, active := true }],
            history := db.history ++
              [{ property_id := pid, change_type := "new_property", change_date := t,
                 old_value := none,
                 new_value := some ("New property: " ++ pyStr a ++ ", " ++ pyStr c) }] }
          pid = some
          { id := pid, address := a, city := c, price := p,
            area := dgetD pd "area" (.vint 0),
            rooms := dgetD pd "rooms" (.vint 0),
            property_type := dgetD pd "property_type" (.vstr "Onbekend"),
            url := u, source := sv,
            first_seen := t, last_seen := t, last_updated := t,
            extra_data := mkExtra pd, active := true } := by
        unfold findProperty
        rw [List.find?_append,
          show db.properties.find? (fun r => r.id == pid) = none from hnone]
        simp [List.find?]
      exact hview _ harea hrooms hpt rfl _ hfind2
  · intro hnone
    exact add_new_congr db pd (withDefaults pd) t pid hid
      (by rw [dlookup_withDefaults pd "id" (by decide) (by decide) (by decide), hid])
      hnone
      (dlookup_withDefaults pd "address" (by decide) (by decide) (by decide))
      (dlookup_withDefaults pd "city" (by decide) (by decide) (by decide))
      (dlookup_withDefaults pd "price" (by decide) (by decide) (by decide))
      (dlookup_withDefaults pd "url" (by decide) (by decide) (by decide))
      (dlookup_withDefaults pd "source" (by decide) (by decide) (by decide))
      (by rw [dgetD_withDefaults_area, harea])
      (by rw [dgetD_withDefaults_rooms, hrooms])
      (by rw [dgetD_withDefaults_ptype, hpt])
      (mkExtra_withDefaults pd)
  · intro chsA chsB dbA dbB hokA hokB
    obtain ⟨pidA, hidA, hcasesA⟩ := add_ok_cases db pd t "updated" chsA dbA hokA
    rw [hid] at hidA
    injection hidA with hpe
    subst hpe
    rcases hcasesA with ⟨row, hrow, hbrA⟩ | ⟨_, hstA, _⟩
    · rcases hbrA with ⟨_, hstA, _, _⟩ | ⟨hccA, _, hchsA, a, c, p, u, hA, hC, hP, hU, hdbA⟩
      · exact absurd hstA (by decide)
      · obtain ⟨pidB, hidB, hcasesB⟩ :=
          add_ok_cases db (withDefaults pd) t "updated" chsB dbB hokB
        rw [dlookup_withDefaults pd "id" (by decide) (by decide) (by decide), hid] at hidB
        injection hidB with hpe
        subst hpe
        rcases hcasesB with ⟨rowB, hrowB, hbrB⟩ | ⟨_, hstB, _⟩
        · rcases hbrB with ⟨_, hstB, _, _⟩ |
            ⟨hccB, _, hchsB, a', c', p', u', hA', hC', hP', hU', hdbB⟩
          · exact absurd hstB (by decide)
          · rw [hrow] at hrowB
            injection hrowB with hre
            subst hre
            rw [dlookup_withDefaults pd "address" (by decide) (by decide) (by decide),
              hA] at hA'
            injection hA' with he
            subst he
            rw [dlookup_withDefaults pd "city" (by decide) (by decide) (by decide),
              hC] at hC'
            injection hC' with he
            subst he
            rw [dlookup_withDefaults pd "price" (by decide) (by decide) (by decide),
              hP] at hP'
            injection hP' with he
            subst he
            rw [dlookup_withDefaults pd "url" (by decide) (by decide) (by decide),
              hU] at hU'
            injection hU' with he
            subst he
            subst hdbA
            subst hdbB
            unfold get_property findProperty
            rw [dgetD_withDefaults_area pd, dgetD_withDefaults_rooms pd,
              dgetD_withDefaults_ptype pd, mkExtra_withDefaults pd, harea, hrooms, hpt]
        · exact absurd hstB (by decide)
    · exact absurd hstA (by decide)

/-- C10 witness: the statement at the empty store and tick 3. -/
theorem C10_witness :
    (∀ st chs db1, add_or_update_property { properties := [], history := [] } C10pd 3
        = .ok (st, chs, db1) → (st = "new" ∨ st = "updated") →
       ((findProperty db1 (.vstr "w")).map PropertyRow.area = some (.vint 0) ∧
        (findProperty db1 (.vstr "w")).map PropertyRow.rooms = some (.vint 0) ∧
        (findProperty db1 (.vstr "w")).map PropertyRow.property_type
          = some (.vstr "Onbekend") ∧
        (get_property db1 (.vstr "w")).bind (fun d => dlookup d "area")
          = some (.vint 0) ∧
        (get_property db1 (.vstr "w")).bind (fun d => dlookup d "rooms")
          = some (.vint 0) ∧
        (get_property db1 (.vstr "w")).bind (fun d => dlookup d "property_type")
          = some (.vstr "Onbekend"))) ∧
    (findProperty { properties := [], history := [] } (.vstr "w") = none →
       add_or_update_property { properties := [], history := [] } C10pd 3
         = add_or_update_property { properties := [], history := [] }
             (withDefaults C10pd) 3) ∧
    (∀ chsA chsB dbA dbB,
       add_or_update_property { properties := [], history := [] } C10pd 3
           = .ok ("updated", chsA, dbA) →
       add_or_update_property { properties := [], history := [] } (withDefaults C10pd) 3
           = .ok ("updated", chsB, dbB) →
       get_property dbA (.vstr "w") = get_property dbB (.vstr "w")) :=
  C10 { properties := [], history := [] } C10pd (.vstr "w") 3 rfl rfl rfl rfl

/-- A successful upsert (through the faulting layer) of a candidate whose id
is not `pid` leaves the lookup of `pid` unchanged. -/
theorem add_flt_other (fault : Value → Bool) (db : DB) (pd : Dict) (now : Nat)
    (pid : Value) (st : String) (chs : List Change) (db2 : DB)
    (h : add_or_update_flt fault db pd now = .ok (st, chs, db2))
    (hq : dlookup pd "id" ≠ some pid) :
    findProperty db2 pid = findProperty db pid := by
  unfold add_or_update_flt at h
  cases hg : getKey pd "id" with
  | error e => rw [hg] at h; exact Except.noConfusion h
  | ok qid =>
    rw [hg] at h
    simp only [] at h
    have hqid : qid ≠ pid := fun he => hq (he ▸ getKey_ok_inv pd "id" qid hg)
    by_cases hfl : fault qid
    · rw [if_pos hfl] at h
      simp only [Except.ok.injEq, Prod.mk.injEq] at h
      obtain ⟨_, _, h3⟩ := h
      rw [← h3]
    · rw [if_neg hfl] at h
      obtain ⟨pid2, hid2, hcases⟩ := add_ok_cases db pd now st chs db2 h
      rw [getKey_ok_inv pd "id" qid hg] at hid2
      injection hid2 with hpe
      subst hpe
      rcases hcases with ⟨row, hrow, hbr⟩ |
        ⟨hnone, _, _, a, c, p, u, sv, _, _, _, _, _, hdb⟩
      · have hrid : row.id = qid := by
          have := List.find?_some hrow
          simpa using this
        rcases hbr with ⟨_, _, _, hdb⟩ | ⟨_, _, _, a, c, p, u, _, _, _, _, hdb⟩
        · subst hdb
          exact find?_replaceRow_other db.properties qid pid _ hqid hrid
        · subst hdb
          exact find?_replaceRow_other db.properties qid pid _ hqid hrid
      · subst hdb
        unfold findProperty
        dsimp only
        rw [List.find?_append]
        cases hfp : db.properties.find? (fun r => r.id == pid) with
        | some x => rfl
        | none =>
          have hb : (qid == pid) = false := beq_eq_false_iff_ne.mpr hqid
          simp [List.find?, hb]

/-- One detector iteration on a listing with a different id: the lookup of
`pid` is preserved and the seen-ids only grow. -/
theorem processOne_other (fault : Value → Bool) (src : String) (s s' : LoopState)
    (l : Dict) (pid : Value) (h : processOne fault src s l = .ok s')
    (hq : dlookup l "id" ≠ some pid) :
    findProperty s'.db pid = findProperty s.db pid ∧
    (∀ x, x ∈ s.active_ids → x ∈ s'.active_ids) := by
  unfold processOne at h
  simp only [] at h
  cases hadd : add_or_update_flt fault s.db (dinsert l "source" (.vstr src)) s.t with
  | error e => rw [hadd] at h; exact Except.noConfusion h
  | ok r =>
    obtain ⟨status, changes, db2⟩ := r
    rw [hadd] at h
    simp only [] at h
    have hdb2 : findProperty db2 pid = findProperty s.db pid :=
      add_flt_other fault s.db _ s.t pid status changes db2 hadd
        (by rw [dlookup_dinsert_other l "source" "id" _ (by decide)]; exact hq)
    cases hgid : getKey (dinsert l "source" (.vstr src)) "id" with
    | error e => rw [hgid] at h; exact Except.noConfusion h
    | ok pid2 =>
      rw [hgid] at h
      simp only [] at h
      by_cases hnew : status = "new"
      · rw [if_pos hnew] at h
        injection h with h'
        subst h'
        exact ⟨hdb2, fun x hx => by simp [hx]⟩
      · rw [if_neg hnew] at h
        by_cases hupd : status = "updated" ∧ changes ≠ []
        · rw [if_pos hupd] at h
          injection h with h'
          subst h'
          exact ⟨hdb2, fun x hx => by simp [hx]⟩
        · rw [if_neg hupd] at h
          injection h with h'
          subst h'
          exact ⟨hdb2, fun x hx => by simp [hx]⟩

/-- `processOne_other` extended over a whole suffix of listings. -/
theorem fold_process_other (fault : Value → Bool) (src : String) (ls : List Dict)
    (s1 s2 : LoopState) (pid : Value)
    (h : ls.foldlM (processOne fault src) s1 = .ok s2)
    (huniq : ∀ l ∈ ls, dlookup l "id" ≠ some pid) :
    findProperty s2.db pid = findProperty s1.db pid ∧
    (∀ x, x ∈ s1.active_ids → x ∈ s2.active_ids) := by
  induction ls generalizing s1 with
  | nil =>
    rw [List.foldlM_nil,
      show (pure s1 : Except String LoopState) = .ok s1 from rfl] at h
    injection h with h'
    subst h'
    exact ⟨rfl, fun x hx => hx⟩
  | cons l ls ih =>
    rw [List.foldlM_cons] at h
    cases h1 : processOne fault src s1 l with
    | error e =>
      rw [h1, show ((Except.error e : Except String LoopState) >>=
          ls.foldlM (processOne fault src)) = .error e from rfl] at h
      exact Except.noConfusion h
    | ok smid =>
      rw [h1, show ((Except.ok smid : Except String LoopState) >>=
          ls.foldlM (processOne fault src))
          = ls.foldlM (processOne fault src) smid from rfl] at h
      obtain ⟨hd1, ha1⟩ := processOne_other fault src s1 smid l pid h1
        (huniq l (by simp))
      obtain ⟨hd2, ha2⟩ := ih smid h (fun x hx => huniq x (by simp [hx]))
      exact ⟨hd2.trans hd1, fun x hx => ha2 x (ha1 x hx)⟩

/-- When every listing of a suffix carries an id other than `pid`, every
element the loop adds to `new` or `updated` has an id other than `pid`. -/
theorem fold_process_ids (fault : Value → Bool) (src : String) (ls : List Dict)
    (s0 s : LoopState) (pid : Value)
    (h : ls.foldlM (processOne fault src) s0 = .ok s)
    (huniq : ∀ l ∈ ls, dlookup l "id" ≠ some pid) :
    (∀ sn ∈ s.new, sn ∈ s0.new ∨ dlookup sn.1 "id" ≠ some pid) ∧
    (∀ sn ∈ s.updated, sn ∈ s0.updated ∨ dlookup sn.1 "id" ≠ some pid) := by
  induction ls generalizing s0 with
  | nil =>
    rw [List.foldlM_nil,
      show (pure s0 : Except String LoopState) = .ok s0 from rfl] at h
    injection h with h'
    subst h'
    exact ⟨fun sn hsn => Or.inl hsn, fun sn hsn => Or.inl hsn⟩
  | cons l ls ih =>
    rw [List.foldlM_cons] at h
    cases h1 : processOne fault src s0 l with
    | error e =>
      rw [h1, show ((Except.error e : Except String LoopState) >>=
          ls.foldlM (processOne fault src)) = .error e from rfl] at h
      exact Except.noConfusion h
    | ok s1 =>
      rw [h1, show ((Except.ok s1 : Except String LoopState) >>=
          ls.foldlM (processOne fault src))
          = ls.foldlM (processOne fault src) s1 from rfl] at h
      obtain ⟨sn0, hsn01, _, hdisj⟩ := processOne_spec fault src s0 s1 l h1
      have hsn0id : dlookup sn0.1 "id" ≠ some pid := by
        rw [hsn01, dlookup_dinsert_other l "source" "id" _ (by decide)]
        exact huniq l (by simp)
      obtain ⟨ihn, ihu⟩ := ih s1 h (fun x hx => huniq x (by simp [hx]))
      constructor
      · intro sn hsn
        rcases ihn sn hsn with hin | hne
        · rcases hdisj with ⟨he1, _⟩ | ⟨he1, _, _⟩ | ⟨he1, _, _⟩
          · rw [he1] at hin; exact Or.inl hin
          · rw [he1] at hin
            rcases List.mem_append.mp hin with h2 | h2
            · exact Or.inl h2
            · obtain rfl : sn = sn0 := by simpa using h2
              exact Or.inr hsn0id
          · rw [he1] at hin; exact Or.inl hin
        · exact Or.inr hne
      · intro sn hsn
        rcases ihu sn hsn with hin | hne
        · rcases hdisj with ⟨_, he2⟩ | ⟨_, he2, _⟩ | ⟨_, he2, _⟩
          · rw [he2] at hin; exact Or.inl hin
          · rw [he2] at hin; exact Or.inl hin
          · rw [he2] at hin
            rcases List.mem_append.mp hin with h2 | h2
            · exact Or.inl h2
            · obtain rfl : sn = sn0 := by simpa using h2
              exact Or.inr hsn0id
        · exact Or.inr hne

theorem exc_ok_bind {α β : Type} (x : α) (g : α → Except String β) :
    (Except.ok x : Except String α) >>= g = g x := rfl

/-- C5: reactivation.  In a batch `pre ++ [pd] ++ post` for a source, when the
store state reached after `pre` holds a (deactivated) record for `pd`'s id
whose core fields all equal the snapshot's values, and no other listing of the
batch carries that id, then `pd`'s upsert returns `unchanged` while setting
`active` back to true, the entity appears in neither the `new` nor the
`updated` result list, and it is active in the final store (the sweep counts
it as seen). -/
theorem C5 (fault : Value → Bool) (db0 : DB) (pre post : List Dict) (pd : Dict)
    (src : String) (t : Nat) (pid : Value) (row : PropertyRow) (s : LoopState)
    (res : BatchResult) (dbF : DB) (snaps : List Snap)
    (hpre : pre.foldlM (processOne fault src)
      { db := db0, new := [], updated := [], active_ids := [], snaps := [], t := t }
        = .ok s)
    (hid : dlookup pd "id" = some pid)
    (hnf : fault pid = false)
    (hrow : findProperty s.db pid = some row)
    (hinact : row.active = false)
    (heq : ∀ f ∈ core_fields, dlookup pd f = some (coreGet row f))
    (huniq : ∀ l ∈ pre ++ post, dlookup l "id" ≠ some pid)
    (hok : process_listings fault db0 (pre ++ pd :: post) src t
      = .ok (res, dbF, snaps)) :
    add_or_update_property s.db (dinsert pd "source" (.vstr src)) s.t
      = .ok ("unchanged", [],
        { s.db with properties := replaceRow s.db.properties pid
                                    { row with last_seen := s.t, active := true } }) ∧
    (∀ sn ∈ res.new, dlookup sn.1 "id" ≠ some pid) ∧
    (∀ sn ∈ res.updated, dlookup sn.1 "id" ≠ some pid) ∧
    (findProperty dbF pid).map PropertyRow.active = some true := by
  have hcs : ∀ f ∈ core_fields, f ≠ "source" := by
    intro f hf
    simp only [core_fields, List.mem_cons, List.not_mem_nil, or_false] at hf
    rcases hf with rfl | rfl | rfl | rfl | rfl | rfl <;> decide
  have hid' : dlookup (dinsert pd "source" (.vstr src)) "id" = some pid := by
    rw [dlookup_dinsert_other pd "source" "id" _ (by decide)]
    exact hid
  have hcc : computeChanges row (dinsert pd "source" (.vstr src)) = [] := by
    apply computeChanges_eq_nil
    intro f hf
    rw [dlookup_dinsert_other pd "source" f _ (fun he => hcs f hf he.symm)]
    exact heq f hf
  have hrowid : row.id = pid := by
    have := List.find?_some hrow
    simpa using this
  have hupsert := add_unchanged_eval s.db (dinsert pd "source" (.vstr src)) s.t pid row
    hid' hrow hcc
  have hflt : add_or_update_flt fault s.db (dinsert pd "source" (.vstr src)) s.t
      = .ok ("unchanged", [],
        { s.db with properties := replaceRow s.db.properties pid
                                    { row with last_seen := s.t, active := true } }) := by
    unfold add_or_update_flt
    rw [getKey_eq_ok _ "id" pid hid']
    simp only []
    rw [hnf, if_neg Bool.false_ne_true]
    exact hupsert
  set smid : LoopState :=
    { db := { s.db with properties := replaceRow s.db.properties pid
                                        { row with last_seen := s.t, active := true } },
      new := s.new, updated := s.updated,
      active_ids := s.active_ids ++ [pid],
      snaps := s.snaps ++ [(dinsert pd "source" (.vstr src), none)],
      t := s.t + 1 } with hsmid
  have hc1 : ¬(("unchanged" : String) = "updated" ∧ ([] : List Change) ≠ []) := by
    intro hx
    exact absurd hx.1 (by decide)
  have hstep : processOne fault src s pd = .ok smid := by
    unfold processOne
    simp only []
    rw [hflt]
    simp only []
    rw [getKey_eq_ok _ "id" pid hid']
    simp only []
    rw [if_neg (show ¬(("unchanged" : String) = "new") from by decide)]
    rw [if_neg hc1, if_neg hc1]
  unfold process_listings at hok
  rw [List.foldlM_append, hpre, exc_ok_bind, List.foldlM_cons, hstep, exc_ok_bind] at hok
  cases hpost : post.foldlM (processOne fault src) smid with
  | error e => rw [hpost] at hok; exact Except.noConfusion hok
  | ok send =>
    rw [hpost] at hok
    simp only [] at hok
    simp only [Except.ok.injEq, Prod.mk.injEq] at hok
    obtain ⟨hres, hdbF, hsnp⟩ := hok
    subst hres
    subst hdbF
    subst hsnp
    obtain ⟨hdbpost, hacts⟩ := fold_process_other fault src post smid send pid hpost
      (fun l hl => huniq l (by simp [hl]))
    obtain ⟨hnewids, hupdids⟩ := fold_process_ids fault src post smid send pid hpost
      (fun l hl => huniq l (by simp [hl]))
    obtain ⟨hnewpre, hupdpre⟩ := fold_process_ids fault src pre
      { db := db0, new := [], updated := [], active_ids := [], snaps := [], t := t }
      s pid hpre (fun l hl => huniq l (by simp [hl]))
    refine ⟨hupsert, ?_, ?_, ?_⟩
    · intro sn hsn
      rcases hnewids sn hsn with hin | hne
      · rcases hnewpre sn hin with h0 | hne2
        · exact absurd h0 (List.not_mem_nil sn)
        · exact hne2
      · exact hne
    · intro sn hsn
      rcases hupdids sn hsn with hin | hne
      · rcases hupdpre sn hin with h0 | hne2
        · exact absurd h0 (List.not_mem_nil sn)
        · exact hne2
      · exact hne
    · have hpidmem : pid ∈ send.active_ids := hacts pid (by rw [hsmid]; simp)
      have hne : send.active_ids.isEmpty = false := by
        cases hae : send.active_ids with
        | nil => rw [hae] at hpidmem; cases hpidmem
        | cons x xs => rfl
      have hcontm : send.active_ids.contains pid = true := List.elem_iff.mpr hpidmem
      unfold mark_inactive_properties
      dsimp only
      rw [hne, if_neg Bool.false_ne_true]
      have hqall : ∀ q ∈ (send.db.properties.filter (fun r =>
          r.source == Value.vstr src && r.active &&
            !(send.active_ids.contains r.id))).map PropertyRow.id, q ≠ pid := by
        intro q hqmem he
        obtain ⟨r, hrf, hrid⟩ := List.mem_map.mp hqmem
        have hpred := (List.mem_filter.mp hrf).2
        have hcont : send.active_ids.contains r.id = false := by
          cases hcb : send.active_ids.contains r.id with
          | false => rfl
          | true => rw [hcb] at hpred; simp at hpred
        rw [hrid, he, hcontm] at hcont
        exact absurd hcont (by decide)
      unfold findProperty
      dsimp only
      rw [find?_foldl_deactivate _ send.db.properties pid _ hqall]
      have h2 : findProperty smid.db pid
          = some { row with last_seen := s.t, active := true } := by
        rw [hsmid]
        unfold findProperty
        dsimp only
        exact find?_replaceRow_self s.db.properties pid _
          (by rw [show s.db.properties.find? (fun r => r.id == pid) = some row from hrow]
              rfl)
          hrowid
      have hfind : send.db.properties.find? (fun r => r.id == pid)
          = some { row with last_seen := s.t, active := true } := hdbpost.trans h2
      rw [hfind]
      rfl

/-- C5 witness: a one-snapshot batch reactivating the deactivated record. -/
theorem C5_witness :
    add_or_update_property C5wdb (dinsert C5wpd "source" (.vstr "s")) 10
      = .ok ("unchanged", [], C5dbF) ∧
    (∀ sn ∈ ({ new := [], updated := [], removed := [] } : BatchResult).new,
      dlookup sn.1 "id" ≠ some (.vstr "a")) ∧
    (∀ sn ∈ ({ new := [], updated := [], removed := [] } : BatchResult).updated,
      dlookup sn.1 "id" ≠ some (.vstr "a")) ∧
    (findProperty C5dbF (.vstr "a")).map PropertyRow.active = some true :=
  C5 nofault C5wdb [] [] C5wpd "s" 10 (.vstr "a") { baseRow with active := false } C5s0
    { new := [], updated := [], removed := [] } C5dbF C5snaps
    rfl rfl rfl rfl rfl (by decide) (by simp) rfl

/-- C8 witness: the conjunction example of spec section 8: the record priced
150000 with area 75 in Rotterdam of type Appartement against the bounded
filter. -/
theorem C8_amended_witness :
    PropertyFilter.matches C8wf C8wpd = .ok true ↔
      ((C8wf.min_price ≤ 150000 ∧ (150000 : Int) ≤ C8wf.max_price) ∧
       C8wf.min_area ≤ 75 ∧
       (C8wf.cities = [] ∨ ∃ c ∈ C8wf.cities,
         subList (String.toLower c).toList (String.toLower "Rotterdam").toList
           = true) ∧
       (C8wf.property_types = [] ∨ "Appartement" ∈ C8wf.property_types)) :=
  C8_amended C8wf C8wpd 150000 75 "Rotterdam" "Appartement" rfl rfl rfl rfl
